import Mathlib

/-!
# SOP Analyzer — verification development

A shallow embedding of the SOP analyzer (`sop_analyzer.py`): the Python
value model, the record/table aggregation functions, a byte-level model of
the zlib inflate primitives used by the adaptive decompressor, the UTF-8 /
JSON decoding pipeline, and the `load_data` caching behaviour, together
with theorems settling the specification claims.

Bytes are modelled as `List Nat` (each element a byte value), Unicode code
points as `Nat`, and Python values by the inductive `PyVal`.
-/

set_option maxRecDepth 10000

abbrev Bytes := List Nat

/-- Code points of a Lean string literal, used to write Python string
values and dictionary keys concisely. -/
def strCodes (s : String) : List Nat := s.toList.map Char.toNat

/-- Model of a Python value as produced by `json.loads` and manipulated by
the analyzer: `None`, `bool`, `int`, `float` (kept as its source token's
code points, since no claim depends on float arithmetic), `str` (a code
point sequence), `list`, and `dict` (entries in insertion order). -/
inductive PyVal where
  | none : PyVal
  | bool (b : Bool) : PyVal
  | int (n : Int) : PyVal
  | float (tok : List Nat) : PyVal
  | str (s : List Nat) : PyVal
  | list (xs : List PyVal) : PyVal
  | dict (entries : List (List Nat × PyVal)) : PyVal

/-- `d.get(k)`: first value stored under key `k` (Python dicts keep keys
unique, which the JSON parser model maintains). -/
def pyGet (entries : List (List Nat × PyVal)) (k : List Nat) : Option PyVal :=
  match entries with
  | [] => Option.none
  | (k', v) :: rest => if k' = k then some v else pyGet rest k

/-- `d.get(k, default)`. -/
def pyGetD (entries : List (List Nat × PyVal)) (k : List Nat) (dflt : PyVal) : PyVal :=
  (pyGet entries k).getD dflt

def recordsKey : List Nat := strCodes "records"
def actionKey : List Nat := strCodes "action"
def tableNameKey : List Nat := strCodes "table_name"
def strongOverwriteKey : List Nat := strCodes "is_strong_overwrite"
def nameKey : List Nat := strCodes "name"
def packAppIdKey : List Nat := strCodes "pack_application_id"
def timestampKey : List Nat := strCodes "timestamp"
def versionKey : List Nat := strCodes "version"
def deleteCodes : List Nat := strCodes "delete"
def unknownCodes : List Nat := strCodes "unknown"

/-- The Russian default string `'Неизвестно'` used by `get_metadata`. -/
def neizvestnoCodes : List Nat := strCodes "Неизвестно"

/-- Python hashability of a JSON-derived value: lists and dicts are
unhashable and raise `TypeError` when used as dictionary keys. -/
def isHashable : PyVal → Bool
  | .list _ => false
  | .dict _ => false
  | _ => true

/-- Python `==` between hashable JSON-derived values, as used for
dictionary-key lookup: `True == 1`, `False == 0`; floats are compared by
token (cross-type numeric equality of floats is never exercised by the
analyzer's string-keyed histograms). Unhashable values never reach a key
comparison. -/
def keyEq : PyVal → PyVal → Bool
  | .none, .none => true
  | .bool a, .bool b => a = b
  | .bool a, .int n => (if a then (1 : Int) else 0) = n
  | .int n, .bool a => n = (if a then (1 : Int) else 0)
  | .int m, .int n => m = n
  | .float a, .float b => a = b
  | .str s, .str t => s = t
  | _, _ => false

/-- `records = data.get('records', [])` followed by `for record in records`:
the body requires a list (the analyzer's record walk); any other present
value makes the Python loop body raise, which the model folds into one
error. A missing key yields the default empty list. -/
def getRecords (data : PyVal) : Except String (List PyVal) :=
  match data with
  | .dict entries =>
    match pyGet entries recordsKey with
    | Option.none => .ok []
    | some (.list rs) => .ok rs
    | some _ => .error "records is not a list"
  | _ => .error "AttributeError: no attribute get"

/-- `dataclass RecordStats`. -/
structure RecordStats where
  total : Nat
  deletes : Nat
  strong_overwrites : Nat
  deriving DecidableEq

/-- `record.get('action') == 'delete'`: in Python only an equal string
compares equal to `'delete'`; a missing key yields `None`, which is not
equal to any string. -/
def isDeleteAction : Option PyVal → Bool
  | some (.str s) => s = deleteCodes
  | _ => false

/-- `record.get('is_strong_overwrite') is True`: identity with the `True`
singleton, so only the boolean `True` passes — not `1`, not `"true"`. -/
def isTrueVal : Option PyVal → Bool
  | some (.bool b) => b
  | _ => false

/-- One step of the `analyze_records` loop body. -/
def recordStep (st : RecordStats) (r : PyVal) : Except String RecordStats :=
  match r with
  | .dict e =>
    let st1 := if isDeleteAction (pyGet e actionKey) then
      { st with deletes := st.deletes + 1 } else st
    let st2 := if isTrueVal (pyGet e strongOverwriteKey) then
      { st1 with strong_overwrites := st1.strong_overwrites + 1 } else st1
    .ok st2
  | _ => .error "AttributeError: no attribute get"

def foldRecordSteps (rs : List PyVal) (st : RecordStats) : Except String RecordStats :=
  match rs with
  | [] => .ok st
  | r :: rest => match recordStep st r with
    | .ok st' => foldRecordSteps rest st'
    | .error e => .error e

/-- `SOPAnalyzer.analyze_records`, as a function of the decoded document. -/
def analyzeRecords (data : PyVal) : Except String RecordStats :=
  match getRecords data with
  | .error e => .error e
  | .ok rs => foldRecordSteps rs { total := rs.length, deletes := 0, strong_overwrites := 0 }

/-- A Python `dict` used as a histogram: association list in insertion
order with unique keys (up to `keyEq`). `h[k] = h.get(k, 0) + 1` updates in
place when the key is present and appends otherwise. -/
def histInc (h : List (PyVal × Nat)) (k : PyVal) : List (PyVal × Nat) :=
  match h with
  | [] => [(k, 1)]
  | (k', n) :: rest =>
    if keyEq k' k then (k', n + 1) :: rest else (k', n) :: histInc rest k

/-- Per-table accumulator: `{'count': …, 'actions': …}` keyed by table name
in first-appearance order. -/
def tablesInc (t : List (PyVal × (Nat × List (PyVal × Nat)))) (tn a : PyVal) :
    List (PyVal × (Nat × List (PyVal × Nat))) :=
  match t with
  | [] => [(tn, (1, [(a, 1)]))]
  | (k, (c, acts)) :: rest =>
    if keyEq k tn then (k, (c + 1, histInc acts a)) :: rest
    else (k, (c, acts)) :: tablesInc rest tn a

/-- One step of the `analyze_tables` loop body: requires the record to be a
dict and the table name and action to be hashable. -/
def tableStep (t : List (PyVal × (Nat × List (PyVal × Nat)))) (r : PyVal) :
    Except String (List (PyVal × (Nat × List (PyVal × Nat)))) :=
  match r with
  | .dict e =>
    let tn := pyGetD e tableNameKey (.str unknownCodes)
    let a := pyGetD e actionKey (.str unknownCodes)
    if isHashable tn then
      if isHashable a then .ok (tablesInc t tn a)
      else .error "TypeError: unhashable type"
    else .error "TypeError: unhashable type"
  | _ => .error "AttributeError: no attribute get"

def foldTableSteps (rs : List PyVal) (t : List (PyVal × (Nat × List (PyVal × Nat)))) :
    Except String (List (PyVal × (Nat × List (PyVal × Nat)))) :=
  match rs with
  | [] => .ok t
  | r :: rest => match tableStep t r with
    | .ok t' => foldTableSteps rest t'
    | .error e => .error e

/-- `dataclass TableInfo`. -/
structure TableInfo where
  name : PyVal
  record_count : Nat
  actions : List (PyVal × Nat)

/-- Stable insert for descending record count: an element is placed after
every earlier element whose count is at least as large, exactly the order
produced by Python's stable `sorted(…, key=count, reverse=True)`. -/
def insertByCountDesc (x : PyVal × (Nat × List (PyVal × Nat))) :
    List (PyVal × (Nat × List (PyVal × Nat))) → List (PyVal × (Nat × List (PyVal × Nat)))
  | [] => [x]
  | y :: ys => if x.2.1 < y.2.1 then y :: insertByCountDesc x ys else x :: y :: ys

/-- Stable sort by record count, descending (model of Python's stable
`sorted` with `reverse=True`). -/
def sortByCountDesc : List (PyVal × (Nat × List (PyVal × Nat))) →
    List (PyVal × (Nat × List (PyVal × Nat)))
  | [] => []
  | x :: xs => insertByCountDesc x (sortByCountDesc xs)

/-- `SOPAnalyzer.analyze_tables`, as a function of the decoded document. -/
def analyzeTables (data : PyVal) : Except String (List TableInfo) :=
  match getRecords data with
  | .error e => .error e
  | .ok rs =>
    match foldTableSteps rs [] with
    | .error e => .error e
    | .ok t => .ok ((sortByCountDesc t).map fun p => ⟨p.1, p.2.1, p.2.2⟩)

/-- One step of the `get_actions_summary` loop body. -/
def actionStep (h : List (PyVal × Nat)) (r : PyVal) : Except String (List (PyVal × Nat)) :=
  match r with
  | .dict e =>
    let a := pyGetD e actionKey (.str unknownCodes)
    if isHashable a then .ok (histInc h a) else .error "TypeError: unhashable type"
  | _ => .error "AttributeError: no attribute get"

def foldActionSteps (rs : List PyVal) (h : List (PyVal × Nat)) :
    Except String (List (PyVal × Nat)) :=
  match rs with
  | [] => .ok h
  | r :: rest => match actionStep h r with
    | .ok h' => foldActionSteps rest h'
    | .error e => .error e

/-- `SOPAnalyzer.get_actions_summary`, as a function of the decoded document. -/
def getActionsSummary (data : PyVal) : Except String (List (PyVal × Nat)) :=
  match getRecords data with
  | .error e => .error e
  | .ok rs => foldActionSteps rs []

/-- `SOPAnalyzer.get_metadata`, as a function of the decoded document:
defaults are the literal `'Неизвестно'` for `name`, `pack_application_id`
and `version`, and `None` for `timestamp`. -/
def getMetadata (data : PyVal) : Except String PyVal :=
  match data with
  | .dict e =>
    .ok (.dict
      [(nameKey, pyGetD e nameKey (.str neizvestnoCodes)),
       (packAppIdKey, pyGetD e packAppIdKey (.str neizvestnoCodes)),
       (timestampKey, pyGetD e timestampKey .none),
       (versionKey, pyGetD e versionKey (.str neizvestnoCodes))])
  | _ => .error "AttributeError: no attribute get"

/-!
## Byte-level model of the zlib inflate primitives (RFC 1950/1951/1952)

`zlib.decompress(data, wbits)` as called by the analyzer's strategies:
`wbits = -15` (raw deflate), default `wbits = 15` (zlib wrapper with
Adler-32 trailer), and `wbits = 15 + 32` (auto-detect zlib/gzip). One-shot
decompression ignores input bytes remaining after the final block.
-/

/-- LSB-first bit reader over a byte list: `acc` holds the `n` unread bits
of the byte currently being consumed. -/
structure BitState where
  acc : Nat
  n : Nat
  rest : Bytes

def truncatedMsg : String := "Error -5 while decompressing data: incomplete or truncated stream"

def readBit (st : BitState) : Except String (Nat × BitState) :=
  match st.n, st.rest with
  | Nat.succ m, _ => .ok (st.acc % 2, ⟨st.acc / 2, m, st.rest⟩)
  | 0, [] => .error truncatedMsg
  | 0, b :: r => .ok (b % 2, ⟨b / 2, 7, r⟩)

/-- Read `k` bits, first bit least significant (RFC 1951 §3.1.1). -/
def readBits : Nat → BitState → Except String (Nat × BitState)
  | 0, st => .ok (0, st)
  | k + 1, st =>
    match readBit st with
    | .error e => .error e
    | .ok (b, st1) =>
      match readBits k st1 with
      | .error e => .error e
      | .ok (v, st2) => .ok (b + 2 * v, st2)

/-- Discard the unread bits of the current byte (stored-block alignment). -/
def alignByte (st : BitState) : BitState := ⟨0, 0, st.rest⟩

/-! ### Canonical Huffman codes (RFC 1951 §3.2.2) -/

/-- Number of codes of length `l` (length 0 means "symbol absent"). -/
def lenCount (lengths : List Nat) (l : Nat) : Nat :=
  if l = 0 then 0 else lengths.count l

/-- Smallest code value of each length in the canonical code. -/
def firstCode (lengths : List Nat) : Nat → Nat
  | 0 => 0
  | l + 1 => (firstCode lengths l + lenCount lengths l) * 2

/-- Symbols having code length `l`, in increasing symbol order. -/
def symbolsWithLen (lengths : List Nat) (l : Nat) : List Nat :=
  (lengths.enum.filter fun p => p.2 = l).map Prod.fst

/-- `left` after processing lengths `1..l` of the Kraft-style counter used
by zlib's `inflate_table` to detect over-subscribed codes (negative) and
incomplete codes (positive at `l = 15`). -/
def huffLeft (lengths : List Nat) : Nat → Int
  | 0 => 1
  | l + 1 => 2 * huffLeft lengths l - (lenCount lengths (l + 1) : Int)

def maxCodeLen (lengths : List Nat) : Nat := lengths.foldr max 0

/-- zlib's table-validity rule: complete codes are valid; the empty code is
permitted (decoding then fails); an incomplete code is permitted only for
literal/distance tables when it consists of a single length-1 code. -/
def huffValid (isCodeLenTable : Bool) (lengths : List Nat) : Bool :=
  huffLeft lengths 15 = 0 ∨ maxCodeLen lengths = 0 ∨
    (¬isCodeLenTable ∧ maxCodeLen lengths = 1 ∧ huffLeft lengths 15 > 0)

/-- Decode one Huffman symbol: accumulate bits MSB-first and stop at the
first length whose canonical code range contains the accumulated value;
codes longer than 15 bits do not exist, so failing past 15 is the
"invalid code" error. -/
def decodeSymAux (lengths : List Nat) : Nat → Nat → Nat → BitState →
    Except String (Nat × BitState)
  | 0, _, _, _ => .error "Error -3 while decompressing data: invalid code"
  | fuel + 1, code, len, st =>
    match readBit st with
    | .error e => .error e
    | .ok (b, st1) =>
      let code1 := code * 2 + b
      let len1 := len + 1
      let f := firstCode lengths len1
      if code1 < f + lenCount lengths len1 ∧ f ≤ code1 then
        .ok ((symbolsWithLen lengths len1).getD (code1 - f) 0, st1)
      else
        decodeSymAux lengths fuel code1 len1 st1

def decodeSym (lengths : List Nat) (st : BitState) : Except String (Nat × BitState) :=
  decodeSymAux lengths 15 0 0 st

/-! ### Fixed tables and length/distance bases (RFC 1951 §3.2.5–3.2.6) -/

def fixedLitLengths : List Nat :=
  List.replicate 144 8 ++ List.replicate 112 9 ++ List.replicate 24 7 ++ List.replicate 8 8

def fixedDistLengths : List Nat := List.replicate 32 5

def lengthBase : List Nat :=
  [3, 4, 5, 6, 7, 8, 9, 10, 11, 13, 15, 17, 19, 23] ++
    ([27, 31, 35, 43, 51, 59, 67, 83, 99, 115, 131, 163, 195, 227, 258])

def lengthExtra : List Nat :=
  List.replicate 8 0 ++ ([1, 1, 1, 1, 2, 2, 2, 2, 3, 3, 3, 3] ++
    ([4, 4, 4, 4, 5, 5, 5, 5, 0]))

def distBase : List Nat :=
  [1, 2, 3, 4, 5, 7, 9, 13, 17, 25, 33, 49, 65, 97] ++
    ([129, 193, 257, 385, 513, 769, 1025, 1537, 2049, 3073] ++
      ([4097, 6145, 8193, 12289, 16385, 24577]))

def distExtra : List Nat :=
  [0, 0, 0, 0, 1, 1, 2, 2, 3, 3, 4, 4, 5, 5] ++
    ([6, 6, 7, 7, 8, 8, 9, 9, 10, 10, 11, 11, 12, 12, 13, 13])

/-- LZ77 back-reference copy. The output is accumulated in reverse (most
recent byte first), so the byte at distance `dist` is at index `dist - 1`;
copying one byte at a time realizes overlapping matches. -/
def copyFrom (dist : Nat) : Nat → Bytes → Bytes
  | 0, out => out
  | n + 1, out => copyFrom dist n (out.getD (dist - 1) 0 :: out)

/-- Decode the symbols of one Huffman-coded block until end-of-block. -/
def inflateSyms (litLens distLens : List Nat) : Nat → BitState → Bytes →
    Except String (Bytes × BitState)
  | 0, _, _ => .error "Error -3 while decompressing data: block symbol fuel exhausted"
  | fuel + 1, st, out =>
    match decodeSym litLens st with
    | .error e => .error e
    | .ok (sym, st1) =>
      if sym < 256 then
        inflateSyms litLens distLens fuel st1 (sym :: out)
      else if sym = 256 then
        .ok (out, st1)
      else if sym ≤ 285 then
        match readBits (lengthExtra.getD (sym - 257) 0) st1 with
        | .error e => .error e
        | .ok (e1, st2) =>
          let mlen := lengthBase.getD (sym - 257) 0 + e1
          match decodeSym distLens st2 with
          | .error e => .error e
          | .ok (dsym, st3) =>
            if dsym ≤ 29 then
              match readBits (distExtra.getD dsym 0) st3 with
              | .error e => .error e
              | .ok (e2, st4) =>
                let dist := distBase.getD dsym 0 + e2
                if dist ≤ out.length then
                  inflateSyms litLens distLens fuel st4 (copyFrom dist mlen out)
                else
                  .error "Error -3 while decompressing data: invalid distance too far back"
            else
              .error "Error -3 while decompressing data: invalid distance code"
      else
        .error "Error -3 while decompressing data: invalid literal/length code"

/-- Permutation in which dynamic-block code-length code lengths are stored. -/
def clOrder : List Nat := [16, 17, 18, 0, 8, 7, 9, 6, 10, 5, 11, 4, 12, 3, 13, 2, 14, 1, 15]

/-- Read `k` 3-bit code lengths for the code-length alphabet, placing them
at the positions given by `clOrder`. -/
def readClLens : Nat → Nat → List Nat → BitState → Except String (List Nat × BitState)
  | 0, _, acc, st => .ok (acc, st)
  | k + 1, i, acc, st =>
    match readBits 3 st with
    | .error e => .error e
    | .ok (v, st1) => readClLens k (i + 1) (acc.set (clOrder.getD i 0) v) st1

/-- Decode the `target` literal/distance code lengths of a dynamic block,
with the 16/17/18 repeat codes (RFC 1951 §3.2.7). `acc` is reversed. -/
def readCodeLens (clLens : List Nat) : Nat → Nat → List Nat → BitState →
    Except String (List Nat × BitState)
  | fuel, target, acc, st =>
    if acc.length ≥ target then .ok (acc.reverse, st)
    else match fuel with
    | 0 => .error "Error -3 while decompressing data: code length fuel exhausted"
    | fuel + 1 =>
      match decodeSym clLens st with
      | .error e => .error e
      | .ok (sym, st1) =>
        if sym ≤ 15 then readCodeLens clLens fuel target (sym :: acc) st1
        else if sym = 16 then
          match acc with
          | [] => .error "Error -3 while decompressing data: invalid bit length repeat"
          | prev :: _ =>
            match readBits 2 st1 with
            | .error e => .error e
            | .ok (v, st2) =>
              if acc.length + (3 + v) ≤ target then
                readCodeLens clLens fuel target (List.replicate (3 + v) prev ++ acc) st2
              else .error "Error -3 while decompressing data: invalid bit length repeat"
        else if sym = 17 then
          match readBits 3 st1 with
          | .error e => .error e
          | .ok (v, st2) =>
            if acc.length + (3 + v) ≤ target then
              readCodeLens clLens fuel target (List.replicate (3 + v) 0 ++ acc) st2
            else .error "Error -3 while decompressing data: invalid bit length repeat"
        else
          match readBits 7 st1 with
          | .error e => .error e
          | .ok (v, st2) =>
            if acc.length + (11 + v) ≤ target then
              readCodeLens clLens fuel target (List.replicate (11 + v) 0 ++ acc) st2
            else .error "Error -3 while decompressing data: invalid bit length repeat"

/-- Decode one deflate block and recurse until the final block; returns the
reversed output and the reader state after the final block. -/
def inflateBlocks : Nat → BitState → Bytes → Except String (Bytes × BitState)
  | 0, _, _ => .error "Error -3 while decompressing data: block fuel exhausted"
  | fuel + 1, st, out =>
    match readBits 1 st with
    | .error e => .error e
    | .ok (bfinal, st1) =>
      match readBits 2 st1 with
      | .error e => .error e
      | .ok (btype, st2) =>
        if btype = 0 then
          match (alignByte st2).rest with
          | l0 :: l1 :: n0 :: n1 :: r =>
            let len := l0 + 256 * l1
            let nlen := n0 + 256 * n1
            if len + nlen = 65535 then
              if len ≤ r.length then
                let out1 := List.reverseAux (r.take len) out
                if bfinal = 1 then .ok (out1, ⟨0, 0, r.drop len⟩)
                else inflateBlocks fuel ⟨0, 0, r.drop len⟩ out1
              else .error truncatedMsg
            else .error "Error -3 while decompressing data: invalid stored block lengths"
          | _ => .error truncatedMsg
        else if btype = 1 then
          match inflateSyms fixedLitLengths fixedDistLengths
              (8 * st2.rest.length + st2.n + 1) st2 out with
          | .error e => .error e
          | .ok (out1, st3) =>
            if bfinal = 1 then .ok (out1, st3) else inflateBlocks fuel st3 out1
        else if btype = 2 then
          match readBits 5 st2 with
          | .error e => .error e
          | .ok (hlit, st3) =>
            match readBits 5 st3 with
            | .error e => .error e
            | .ok (hdist, st4) =>
              match readBits 4 st4 with
              | .error e => .error e
              | .ok (hclen, st5) =>
                if hlit + 257 > 286 ∨ hdist + 1 > 30 then
                  .error "Error -3 while decompressing data: too many length or distance symbols"
                else
                  match readClLens (hclen + 4) 0 (List.replicate 19 0) st5 with
                  | .error e => .error e
                  | .ok (clLens, st6) =>
                    if huffValid true clLens then
                      match readCodeLens clLens (hlit + 257 + hdist + 1)
                          (hlit + 257 + hdist + 1) [] st6 with
                      | .error e => .error e
                      | .ok (lens, st7) =>
                        let litLens := lens.take (hlit + 257)
                        let distLens := lens.drop (hlit + 257)
                        if huffValid false litLens then
                          if huffValid false distLens then
                            match inflateSyms litLens distLens
                                (8 * st7.rest.length + st7.n + 1) st7 out with
                            | .error e => .error e
                            | .ok (out1, st8) =>
                              if bfinal = 1 then .ok (out1, st8)
                              else inflateBlocks fuel st8 out1
                          else .error "Error -3 while decompressing data: invalid distances set"
                        else .error "Error -3 while decompressing data: invalid literal/lengths set"
                    else .error "Error -3 while decompressing data: invalid code lengths set"
        else .error "Error -3 while decompressing data: invalid block type"

/-- `zlib.decompress(data, -15)`: raw (headerless) inflate; bytes after the
final block are ignored, a stream that ends early is an error. -/
def rawInflate (d : Bytes) : Except String Bytes :=
  match inflateBlocks (8 * d.length + 8) ⟨0, 0, d⟩ [] with
  | .error e => .error e
  | .ok (out, _) => .ok out.reverse

/-- Adler-32 running pair `(s1, s2)` (RFC 1950 §8). -/
def adlerStep (p : Nat × Nat) (b : Nat) : Nat × Nat :=
  ((p.1 + b) % 65521, (p.2 + (p.1 + b) % 65521) % 65521)

def adler32 (l : Bytes) : Nat :=
  let p := l.foldl adlerStep (1, 0)
  p.2 * 65536 + p.1

/-- CRC-32 (reflected, polynomial `0xEDB88320`), for the gzip trailer. -/
def crcShift (c : Nat) : Nat := if c % 2 = 1 then (c / 2) ^^^ 0xEDB88320 else c / 2

def crcByte (c b : Nat) : Nat := crcShift^[8] (c ^^^ b)

def crc32 (l : Bytes) : Nat := (l.foldl crcByte 0xFFFFFFFF) ^^^ 0xFFFFFFFF

/-- `zlib.decompress(data)` with the default `wbits = 15`: 2-byte header
check, inflate, then the big-endian Adler-32 trailer check. -/
def zlibInflate (d : Bytes) : Except String Bytes :=
  match d with
  | b0 :: b1 :: rest =>
    if (b0 * 256 + b1) % 31 ≠ 0 then
      .error "Error -3 while decompressing data: incorrect header check"
    else if b0 % 16 ≠ 8 then
      .error "Error -3 while decompressing data: unknown compression method"
    else if b0 / 16 > 7 then
      .error "Error -3 while decompressing data: invalid window size"
    else if b1 / 32 % 2 = 1 then
      .error "Error 2 while decompressing data: preset dictionary needed"
    else
      match inflateBlocks (8 * rest.length + 8) ⟨0, 0, rest⟩ [] with
      | .error e => .error e
      | .ok (out, st) =>
        match st.rest with
        | a0 :: a1 :: a2 :: a3 :: _ =>
          if ((a0 * 256 + a1) * 256 + a2) * 256 + a3 = adler32 out.reverse then
            .ok out.reverse
          else .error "Error -3 while decompressing data: incorrect data check"
        | _ => .error truncatedMsg
  | _ => .error truncatedMsg

/-- `zlib.decompress(data, 15 + 32)`: auto-detect gzip by its magic bytes,
otherwise fall back to the zlib wrapper. The analyzer only reaches the gzip
path through its fixed synthetic header, whose FLG byte is zero, so the
optional gzip header fields never occur. -/
def inflate47 (d : Bytes) : Except String Bytes :=
  match d with
  | 0x1f :: 0x8b :: cm :: flg :: _ :: _ :: _ :: _ :: _ :: _ :: body =>
    if cm ≠ 8 then .error "Error -3 while decompressing data: unknown compression method"
    else if flg ≠ 0 then .error "Error -3 while decompressing data: gzip header flags not modelled"
    else
      match inflateBlocks (8 * body.length + 8) ⟨0, 0, body⟩ [] with
      | .error e => .error e
      | .ok (out, st) =>
        match st.rest with
        | c0 :: c1 :: c2 :: c3 :: i0 :: i1 :: i2 :: i3 :: _ =>
          if ((c3 * 256 + c2) * 256 + c1) * 256 + c0 = crc32 out.reverse then
            if ((i3 * 256 + i2) * 256 + i1) * 256 + i0 = out.length % 4294967296 then
              .ok out.reverse
            else .error "Error -3 while decompressing data: incorrect length check"
          else .error "Error -3 while decompressing data: incorrect data check"
        | _ => .error truncatedMsg
  | _ => zlibInflate d

/-! ### The four decompression strategies and `_decompress_data` -/

/-- `SOPAnalyzer._try_raw_deflate`. -/
def tryRawDeflate (d : Bytes) : Except String Bytes := rawInflate d

/-- `SOPAnalyzer._try_zlib_deflate`. -/
def tryZlibDeflate (d : Bytes) : Except String Bytes := zlibInflate d

/-- The fixed synthetic gzip header prepended by `_try_gzip_format`. -/
def gzipSyntheticHeader : Bytes := [0x1f, 0x8b, 0x08, 0x00, 0x00, 0x00, 0x00, 0x00, 0x02, 0xff]

/-- `SOPAnalyzer._try_gzip_format`: synthetic header, eight zero trailer
bytes, combined zlib/gzip window. -/
def tryGzipFormat (d : Bytes) : Except String Bytes :=
  inflate47 (gzipSyntheticHeader ++ d ++ List.replicate 8 0)

def headerCandidates : List Bytes := [[], [0x78, 0x9c], [0x78, 0x01], [0x78, 0xda]]

def tryHeadersLoop : List Bytes → Bytes → Option Bytes
  | [], _ => Option.none
  | h :: hs, d =>
    match zlibInflate (h ++ d) with
    | .ok r => some r
    | .error _ => tryHeadersLoop hs d

def tryStripLoop : List Nat → Bytes → Option Bytes
  | [], _ => Option.none
  | i :: is, d =>
    match rawInflate (d.drop i) with
    | .ok r => some r
    | .error _ => tryStripLoop is d

/-- `SOPAnalyzer._try_with_headers`: candidate 2-byte zlib headers in
order, then raw inflate after discarding the first `i` bytes for
`i = 0 .. min(10, len(data)) - 1`. -/
def tryWithHeaders (d : Bytes) : Except String Bytes :=
  match tryHeadersLoop headerCandidates d with
  | some r => .ok r
  | Option.none =>
    match tryStripLoop (List.range (min 10 d.length)) d with
    | some r => .ok r
    | Option.none => .error "Все методы с заголовками не сработали"

/-- The strategy list of `_decompress_data`, in source order. -/
def decompressMethods : List (String × (Bytes → Except String Bytes)) :=
  [("_try_raw_deflate", tryRawDeflate),
   ("_try_zlib_deflate", tryZlibDeflate),
   ("_try_gzip_format", tryGzipFormat),
   ("_try_with_headers", tryWithHeaders)]

/-- The message of the `ValueError` raised when every strategy fails. -/
def exhaustedMsg : String := "Не удалось декомпрессировать данные ни одним из методов"

def decompressLoop : List (String × (Bytes → Except String Bytes)) → Bytes → Except String Bytes
  | [], _ => .error exhaustedMsg
  | (_, f) :: ms, d =>
    match f d with
    | .ok r => .ok r
    | .error _ => decompressLoop ms d

/-- `SOPAnalyzer._decompress_data`. -/
def decompressData (d : Bytes) : Except String Bytes := decompressLoop decompressMethods d

def decompressTraceLoop : List (String × (Bytes → Except String Bytes)) → Bytes →
    List (String × Except String Bytes)
  | [], _ => []
  | (nm, f) :: ms, d =>
    match f d with
    | .ok r => [(nm, .ok r)]
    | .error e => (nm, .error e) :: decompressTraceLoop ms d

/-- The attempts `_decompress_data` actually makes, in order, with each
attempt's outcome — the observable per-strategy diagnostics: the loop stops
at the first success. -/
def decompressTrace (d : Bytes) : List (String × Except String Bytes) :=
  decompressTraceLoop decompressMethods d

/-!
## UTF-8 decoding (`bytes.decode('utf-8')`, strict) and JSON

`json.loads` operates on the decoded text; the model works on the list of
code points. Python's strict UTF-8 decoder rejects overlong forms,
surrogates and out-of-range values.
-/

def utf8Cont (c : Nat) : Bool := 0x80 ≤ c ∧ c ≤ 0xBF

def utf8Cont3 (b c : Nat) : Bool :=
  if b = 0xE0 then 0xA0 ≤ c ∧ c ≤ 0xBF
  else if b = 0xED then 0x80 ≤ c ∧ c ≤ 0x9F
  else utf8Cont c

def utf8Cont4 (b c : Nat) : Bool :=
  if b = 0xF0 then 0x90 ≤ c ∧ c ≤ 0xBF
  else if b = 0xF4 then 0x80 ≤ c ∧ c ≤ 0x8F
  else utf8Cont c

def mapCons (c : Nat) : Except String (List Nat) → Except String (List Nat)
  | .ok cs => .ok (c :: cs)
  | .error e => .error e

/-- Decode one UTF-8 sequence starting with byte `b`, returning the code
point and the remaining bytes. Overlong forms, surrogates and values above
U+10FFFF are rejected through the per-byte range conditions. -/
def utf8Step (b : Nat) (r : Bytes) : Except String (Nat × Bytes) :=
  if b < 0x80 then .ok (b, r)
  else if 0xC2 ≤ b ∧ b ≤ 0xDF then
    match r with
    | c1 :: r1 =>
      if utf8Cont c1 then .ok ((b - 0xC0) * 64 + (c1 - 0x80), r1)
      else .error "UnicodeDecodeError: invalid continuation byte"
    | [] => .error "UnicodeDecodeError: unexpected end of data"
  else if 0xE0 ≤ b ∧ b ≤ 0xEF then
    match r with
    | c1 :: c2 :: r2 =>
      if utf8Cont3 b c1 ∧ utf8Cont c2 then
        .ok ((b - 0xE0) * 4096 + (c1 - 0x80) * 64 + (c2 - 0x80), r2)
      else .error "UnicodeDecodeError: invalid continuation byte"
    | _ => .error "UnicodeDecodeError: unexpected end of data"
  else if 0xF0 ≤ b ∧ b ≤ 0xF4 then
    match r with
    | c1 :: c2 :: c3 :: r3 =>
      if utf8Cont4 b c1 ∧ utf8Cont c2 ∧ utf8Cont c3 then
        .ok ((b - 0xF0) * 262144 + (c1 - 0x80) * 4096 + (c2 - 0x80) * 64 + (c3 - 0x80), r3)
      else .error "UnicodeDecodeError: invalid continuation byte"
    | _ => .error "UnicodeDecodeError: unexpected end of data"
  else .error "UnicodeDecodeError: invalid start byte"

/-- Fueled decode loop; each step consumes at least one byte, so fuel equal
to the byte count never runs out. -/
def utf8DecodeF : Nat → Bytes → Except String (List Nat)
  | _, [] => .ok []
  | 0, _ :: _ => .error "UnicodeDecodeError: unexpected end of data"
  | fuel + 1, b :: r =>
    match utf8Step b r with
    | .ok (c, rest) => mapCons c (utf8DecodeF fuel rest)
    | .error e => .error e

/-- `bytes.decode('utf-8')` (strict), yielding the code points. -/
def utf8Decode (l : Bytes) : Except String (List Nat) := utf8DecodeF l.length l

/-- UTF-8 encoding of one code point (total; claims only exercise scalar
values). -/
def utf8Encode (c : Nat) : Bytes :=
  if c < 0x80 then [c]
  else if c < 0x800 then [0xC0 + c / 64, 0x80 + c % 64]
  else if c < 0x10000 then [0xE0 + c / 4096, 0x80 + c / 64 % 64, 0x80 + c % 64]
  else [0xF0 + c / 262144, 0x80 + c / 4096 % 64, 0x80 + c / 64 % 64, 0x80 + c % 64]

/-! ### `json.loads` on a code-point sequence -/

def isWsChar (c : Nat) : Bool := c = 32 ∨ c = 9 ∨ c = 10 ∨ c = 13

def skipWs : List Nat → List Nat
  | [] => []
  | c :: r => if isWsChar c then skipWs r else c :: r

/-- Match a literal word at the head of the input. -/
def dropWord : List Nat → List Nat → Option (List Nat)
  | [], cs => some cs
  | l :: ls, c :: cs => if c = l then dropWord ls cs else Option.none
  | _ :: _, [] => Option.none

def isDigitCode (c : Nat) : Bool := 48 ≤ c ∧ c ≤ 57

def takeDigits : List Nat → List Nat × List Nat
  | [] => ([], [])
  | c :: r =>
    if isDigitCode c then
      let (ds, rest) := takeDigits r
      (c :: ds, rest)
    else ([], c :: r)

def digitsToNat (ds : List Nat) : Nat := ds.foldl (fun a c => a * 10 + (c - 48)) 0

/-- Python `json`'s number regex `-?(0|[1-9]\d*)(\.\d+)?([eE][-+]?\d+)?`:
each optional group matches only when complete; an integer-only match
produces a Python `int`, otherwise a `float` carrying the matched token. -/
def parseNumber (cs : List Nat) : Option (PyVal × List Nat) :=
  let (negTok, cs1) : List Nat × List Nat :=
    match cs with
    | 45 :: r => ([45], r)
    | _ => ([], cs)
  match cs1 with
  | c :: r =>
    if c = 48 ∨ (isDigitCode c ∧ c ≠ 48) then
      let (intDs, rest1) : List Nat × List Nat :=
        if c = 48 then ([48], r)
        else
          let (ds, rest) := takeDigits r
          (c :: ds, rest)
      let (fracDs, rest2) : List Nat × List Nat :=
        match rest1 with
        | 46 :: r2 =>
          match takeDigits r2 with
          | ([], _) => ([], rest1)
          | (ds, rest) => (46 :: ds, rest)
        | _ => ([], rest1)
      let (expDs, rest3) : List Nat × List Nat :=
        match rest2 with
        | e :: r3 =>
          if e = 101 ∨ e = 69 then
            let (sgn, r4) : List Nat × List Nat :=
              match r3 with
              | 43 :: r5 => ([43], r5)
              | 45 :: r5 => ([45], r5)
              | _ => ([], r3)
            match takeDigits r4 with
            | ([], _) => ([], rest2)
            | (ds, rest) => (e :: (sgn ++ ds), rest)
          else ([], rest2)
        | _ => ([], rest2)
      if fracDs = [] ∧ expDs = [] then
        let v : Int := digitsToNat intDs
        some (.int (if negTok = [] then v else -v), rest1)
      else
        some (.float (negTok ++ intDs ++ fracDs ++ expDs), rest3)
    else Option.none
  | [] => Option.none

def hexVal (c : Nat) : Option Nat :=
  if 48 ≤ c ∧ c ≤ 57 then some (c - 48)
  else if 97 ≤ c ∧ c ≤ 102 then some (c - 87)
  else if 65 ≤ c ∧ c ≤ 70 then some (c - 55)
  else Option.none

def hex4 : List Nat → Option (Nat × List Nat)
  | a :: b :: c :: d :: r =>
    match hexVal a, hexVal b, hexVal c, hexVal d with
    | some x, some y, some z, some w => some (((x * 16 + y) * 16 + z) * 16 + w, r)
    | _, _, _, _ => Option.none
  | _ => Option.none

/-- One escape sequence after the backslash: yields the resulting code
point and the remaining input. Strict `json.loads` escapes; `\\uXXXX`
surrogate pairs combine, a lone surrogate is kept as its code (Python
strings admit them). -/
def escStep (r : List Nat) : Except String (Nat × List Nat) :=
  match r with
  | [] => .error "Unterminated string"
  | e :: r1 =>
    if e = 34 then .ok (34, r1)
    else if e = 92 then .ok (92, r1)
    else if e = 47 then .ok (47, r1)
    else if e = 98 then .ok (8, r1)
    else if e = 102 then .ok (12, r1)
    else if e = 110 then .ok (10, r1)
    else if e = 114 then .ok (13, r1)
    else if e = 116 then .ok (9, r1)
    else if e = 117 then
      match hex4 r1 with
      | Option.none => .error "Invalid hex escape"
      | some (v, r2) =>
        if 0xD800 ≤ v ∧ v ≤ 0xDBFF then
          match r2 with
          | 92 :: 117 :: r3 =>
            match hex4 r3 with
            | some (w, r4) =>
              if 0xDC00 ≤ w ∧ w ≤ 0xDFFF then
                .ok (0x10000 + (v - 0xD800) * 1024 + (w - 0xDC00), r4)
              else .ok (v, r2)
            | Option.none => .ok (v, r2)
          | _ => .ok (v, r2)
        else .ok (v, r2)
    else .error "Invalid escape"

/-- JSON string body after the opening quote; `acc` is reversed. Strict
mode rejects raw control characters. -/
def parseStringAux : Nat → List Nat → List Nat → Except String (List Nat × List Nat)
  | 0, _, _ => .error "Unterminated string"
  | _ + 1, [], _ => .error "Unterminated string"
  | fuel + 1, c :: r, acc =>
    if c = 34 then .ok (acc.reverse, r)
    else if c = 92 then
      match escStep r with
      | .ok (v, r2) => parseStringAux fuel r2 (v :: acc)
      | .error e => .error e
    else if c < 32 then .error "Invalid control character"
    else parseStringAux fuel r (c :: acc)

/-- Python dict build-up during object parsing: a repeated key replaces the
stored value in place (insertion position preserved), a fresh key appends. -/
def dictUpdate (entries : List (List Nat × PyVal)) (k : List Nat) (v : PyVal) :
    List (List Nat × PyVal) :=
  match entries with
  | [] => [(k, v)]
  | (k', v') :: r => if k' = k then (k', v) :: r else (k', v') :: dictUpdate r k v

/-- The non-composite value alternatives of the scanner: keyword literals,
`NaN`/`Infinity`, numbers. -/
def parseScalar (cs : List Nat) : Except String (PyVal × List Nat) :=
  match dropWord (strCodes "true") cs with
  | some rest => .ok (.bool true, rest)
  | Option.none =>
  match dropWord (strCodes "false") cs with
  | some rest => .ok (.bool false, rest)
  | Option.none =>
  match dropWord (strCodes "null") cs with
  | some rest => .ok (.none, rest)
  | Option.none =>
  match dropWord (strCodes "NaN") cs with
  | some rest => .ok (.float (strCodes "NaN"), rest)
  | Option.none =>
  match dropWord (strCodes "Infinity") cs with
  | some rest => .ok (.float (strCodes "Infinity"), rest)
  | Option.none =>
  match dropWord (strCodes "-Infinity") cs with
  | some rest => .ok (.float (strCodes "-Infinity"), rest)
  | Option.none =>
  match parseNumber cs with
  | some (v, rest) => .ok (v, rest)
  | Option.none => .error "Expecting value"

mutual

/-- `json.loads` value scanner at a whitespace-free position. -/
def parseJsonValue : Nat → List Nat → Except String (PyVal × List Nat)
  | 0, _ => .error "Expecting value"
  | fuel + 1, cs =>
    match cs with
    | 34 :: r =>
      match parseStringAux (r.length + 1) r [] with
      | .ok (s, rest) => .ok (.str s, rest)
      | .error e => .error e
    | 123 :: r => parseJsonObj fuel (skipWs r) [] true
    | 91 :: r => parseJsonArr fuel (skipWs r) [] true
    | _ => parseScalar cs

/-- Object members after `{` (whitespace skipped); `first` tells whether a
closing `}` may come without a preceding member. -/
def parseJsonObj : Nat → List Nat → List (List Nat × PyVal) → Bool →
    Except String (PyVal × List Nat)
  | 0, _, _, _ => .error "Expecting property name enclosed in double quotes"
  | fuel + 1, cs, acc, first =>
    match cs with
    | 125 :: r =>
      if first then .ok (.dict acc, r)
      else .error "Expecting property name enclosed in double quotes"
    | 34 :: r =>
      match parseStringAux (r.length + 1) r [] with
      | .error e => .error e
      | .ok (k, rest1) =>
        match skipWs rest1 with
        | 58 :: rest2 =>
          match parseJsonValue fuel (skipWs rest2) with
          | .error e => .error e
          | .ok (v, rest3) =>
            match skipWs rest3 with
            | 44 :: rest4 => parseJsonObj fuel (skipWs rest4) (dictUpdate acc k v) false
            | 125 :: rest4 => .ok (.dict (dictUpdate acc k v), rest4)
            | _ => .error "Expecting ',' delimiter"
        | _ => .error "Expecting ':' delimiter"
    | _ => .error "Expecting property name enclosed in double quotes"

/-- Array items after `[` (whitespace skipped). -/
def parseJsonArr : Nat → List Nat → List PyVal → Bool →
    Except String (PyVal × List Nat)
  | 0, _, _, _ => .error "Expecting value"
  | fuel + 1, cs, acc, first =>
    match cs with
    | 93 :: r =>
      if first then .ok (.list acc.reverse, r)
      else .error "Expecting value"
    | _ =>
      match parseJsonValue fuel cs with
      | .error e => .error e
      | .ok (v, rest1) =>
        match skipWs rest1 with
        | 44 :: rest2 => parseJsonArr fuel (skipWs rest2) (v :: acc) false
        | 93 :: rest2 => .ok (.list (v :: acc).reverse, rest2)
        | _ => .error "Expecting ',' delimiter"

end

/-- `json.loads` on decoded text: skip leading whitespace, scan one value,
require only whitespace afterwards. -/
def jsonParseTop (cps : List Nat) : Except String PyVal :=
  match parseJsonValue (cps.length + 1) (skipWs cps) with
  | .error e => .error e
  | .ok (v, rest) =>
    match skipWs rest with
    | [] => .ok v
    | _ => .error "Extra data"

/-! ### A standard minimal JSON serializer

Witnesses "document serialized as a UTF-8 JSON object": mandatory escapes
only (quote, backslash, control characters with the conventional short
forms), non-ASCII characters encoded as raw UTF-8, compact separators. -/

def hexDigitCode (n : Nat) : Nat := if n < 10 then 48 + n else 87 + n

def escapeChar (c : Nat) : Bytes :=
  if c = 34 then [92, 34]
  else if c = 92 then [92, 92]
  else if c = 8 then [92, 98]
  else if c = 9 then [92, 116]
  else if c = 10 then [92, 110]
  else if c = 12 then [92, 102]
  else if c = 13 then [92, 114]
  else if c < 32 then
    [92, 117, 48, 48, hexDigitCode (c / 16), hexDigitCode (c % 16)]
  else utf8Encode c

def escapeList : List Nat → Bytes
  | [] => []
  | c :: r => escapeChar c ++ escapeList r

def serString (s : List Nat) : Bytes := 34 :: (escapeList s ++ [34])

mutual

def jsonSerialize : PyVal → Bytes
  | .none => strCodes "null"
  | .bool true => strCodes "true"
  | .bool false => strCodes "false"
  | .int n => strCodes (toString n)
  | .float tok => tok
  | .str s => serString s
  | .list xs => 91 :: (serItems xs ++ [93])
  | .dict es => 123 :: (serEntries es ++ [125])

def serItems : List PyVal → Bytes
  | [] => []
  | [x] => jsonSerialize x
  | x :: y :: r => jsonSerialize x ++ 44 :: serItems (y :: r)

def serEntries : List (List Nat × PyVal) → Bytes
  | [] => []
  | [(k, v)] => serString k ++ 58 :: jsonSerialize v
  | (k, v) :: e :: r => serString k ++ 58 :: jsonSerialize v ++ 44 :: serEntries (e :: r)

end

/-!
## `load_data`: container scan, decode pipeline, caching

The filesystem/zipfile layer is abstracted to the three outcomes the code
distinguishes: a missing path, a file `zipfile` rejects (`BadZipFile`), and
a readable archive given by its named entries in listing order.
-/

inductive ZipSource where
  | missing : ZipSource
  | badZip : ZipSource
  | archive (entries : List (List Nat × Bytes)) : ZipSource

/-- `name.endswith('.data')`: the last five code points are `.data`. -/
def endsWithData (name : List Nat) : Bool :=
  5 ≤ name.length ∧ name.drop (name.length - 5) = strCodes ".data"

/-- The distinct failure exits of `load_data`, each corresponding to one
raise site with its own exception type or message. -/
inductive SopError where
  | fileNotFound : SopError
  | corruptContainer : SopError
  | missingDataEntry : SopError
  | decompressionExhausted : SopError
  | unicodeDecodeError (msg : String) : SopError
  | jsonParseError (msg : String) : SopError
  deriving DecidableEq

/-- The user-visible message of each failure exit (`FileNotFoundError` or
`ValueError`/`UnicodeDecodeError` text). -/
def errText : SopError → String
  | .fileNotFound => "SOP файл не найден"
  | .corruptContainer => "Некорректный ZIP архив"
  | .missingDataEntry => "В архиве не найден файл с данными (.data)"
  | .decompressionExhausted => "Не удалось декомпрессировать данные ни одним из методов"
  | .unicodeDecodeError m => "UnicodeDecodeError: " ++ m
  | .jsonParseError m => "Ошибка парсинга JSON: " ++ m

/-- Decode an extracted entry: decompress, UTF-8 decode, JSON parse. -/
def decodeEntryBytes (b : Bytes) : Except SopError PyVal :=
  match decompressData b with
  | .error _ => .error .decompressionExhausted
  | .ok dec =>
    match utf8Decode dec with
    | .error m => .error (.unicodeDecodeError m)
    | .ok cps =>
      match jsonParseTop cps with
      | .error m => .error (.jsonParseError m)
      | .ok v => .ok v

/-- One full (non-cached) run of `load_data`. -/
def loadDataOnce (src : ZipSource) : Except SopError PyVal :=
  match src with
  | .missing => .error .fileNotFound
  | .badZip => .error .corruptContainer
  | .archive entries =>
    match entries.filter (fun e => endsWithData e.1) with
    | [] => .error .missingDataEntry
    | e :: _ => decodeEntryBytes e.2

/-- `load_data` with the `self._data` attribute: `_data` starts as Python
`None` and the guard is `if self._data is not None`, so the unset sentinel
and a cached JSON `null` document are the very same value — modelled by a
`PyVal` cache whose `.none` means "run the pipeline". On success the
decoded document is assigned to `_data` (even when it is `null`); no
failure path touches the attribute. -/
def loadData (cache : PyVal) (src : ZipSource) :
    Except SopError PyVal × PyVal :=
  match cache with
  | PyVal.none =>
    match loadDataOnce src with
    | .ok d => (.ok d, d)
    | .error e => (.error e, PyVal.none)
  | d => (.ok d, d)

/-!
## Claim-support definitions
-/

def isDictVal : PyVal → Bool
  | .dict _ => true
  | _ => false

/-- Spec-side counting predicate for the strong-overwrite claim: the record
is a mapping whose `is_strong_overwrite` value is exactly the boolean
`True`. -/
def strongFlagIsTrue (r : PyVal) : Bool :=
  match r with
  | .dict e => isTrueVal (pyGet e strongOverwriteKey)
  | _ => false

/-- Spec-side counting predicate for delete actions. -/
def deleteFlag (r : PyVal) : Bool :=
  match r with
  | .dict e => isDeleteAction (pyGet e actionKey)
  | _ => false

/-- The action value a record contributes to the histograms (`'unknown'`
when absent). -/
def actionOf (r : PyVal) : PyVal :=
  match r with
  | .dict e => pyGetD e actionKey (.str unknownCodes)
  | _ => .none

/-- The table name a record is grouped under (`'unknown'` when absent). -/
def tableNameOf (r : PyVal) : PyVal :=
  match r with
  | .dict e => pyGetD e tableNameKey (.str unknownCodes)
  | _ => .none

def histTotal (h : List (PyVal × Nat)) : Nat := (h.map Prod.snd).sum

def tablesTotal (t : List (PyVal × (Nat × List (PyVal × Nat)))) : Nat :=
  (t.map fun p => p.2.1).sum

def mkTableInfo (p : PyVal × (Nat × List (PyVal × Nat))) : TableInfo := ⟨p.1, p.2.1, p.2.2⟩

/-- The `j`-th decompression strategy applied to `d` (out-of-range indices
fail, matching an empty attempt). -/
def methodResult (j : Nat) (d : Bytes) : Except String Bytes :=
  match decompressMethods.get? j with
  | some m => m.2 d
  | Option.none => .error "no such method"

/-- Deflate stored-block framing of a byte string, as emitted by zlib's
no-compression mode: full 65535-byte non-final blocks followed by one final
block holding the remainder. -/
def storedBlocks (b : Bytes) : Bytes :=
  if h : b.length ≤ 65535 then
    [1, b.length % 256, b.length / 256, 255 - b.length % 256, 255 - b.length / 256] ++ b
  else
    [0, 255, 255, 0, 0] ++ b.take 65535 ++ storedBlocks (b.drop 65535)
termination_by b.length
decreasing_by simp [List.length_drop]; omega

def adlerBE (b : Bytes) : Bytes :=
  [adler32 b / 16777216 % 256, adler32 b / 65536 % 256, adler32 b / 256 % 256, adler32 b % 256]

/-- Model of `zlib.compress(data, 0)` (zlib ≥ 1.2.12 single-pass layout):
the `78 01` header, stored blocks, big-endian Adler-32 trailer. -/
def zlibCompress0 (b : Bytes) : Bytes := [0x78, 0x01] ++ storedBlocks b ++ adlerBE b

/-- `json.loads(decoded_bytes.decode('utf-8'))`. -/
def parseDocBytes (b : Bytes) : Except String PyVal :=
  match utf8Decode b with
  | .error e => .error e
  | .ok cps => jsonParseTop cps

/-- A 613-byte string that is simultaneously a complete raw (headerless)
deflate stream (two stored blocks: `0x08` opens a non-final stored block
whose LEN/NLEN bytes `5B 02 A4 FD` check out, `0x01` at offset 608 closes)
and a valid zlib stream (header `08 5B`, a fixed-Huffman empty block, a
final stored block of 253 zero bytes, correct Adler-32 trailer). -/
def dualFramedBytes : Bytes :=
  [0x08, 0x5B, 0x02, 0xA4, 0xFD, 0x00, 0x02, 0xFF] ++ List.replicate 253 0 ++
    [0x00, 0xFD, 0x00, 0x01] ++ List.replicate 343 0 ++ [0x01, 0x00, 0x00, 0xFF, 0xFF]

def jsonHeadBytes : Bytes := [123, 34, 107, 34, 58, 34]

/-- Code points of the string value of the round-trip counterexample
document: the bytes `31 2F 50 D0 AF` at payload offsets 255–259 form the
characters `1/PЯ` inside the JSON string while doubling as a valid stored
deflate block header when the zlib-compressed file is read as raw deflate. -/
def contentC2 : List Nat :=
  List.replicate 249 65 ++ [49, 47, 80, 1071] ++ List.replicate 65016 65

/-- The 65278-byte UTF-8 JSON serialization `{"k":"A…A1/PЯA…A"}`. -/
def payloadC2 : Bytes :=
  jsonHeadBytes ++ List.replicate 249 65 ++ [49, 47, 80, 0xD0, 0xAF] ++
    List.replicate 65016 65 ++ [34, 125]

def docC2 : PyVal := .dict [([107], .str contentC2)]

/-- What raw inflate extracts from `zlibCompress0 payloadC2`: the stored
copy starting inside the zlib framing — not the document. -/
def gC2 : Bytes := 1 :: 1 :: (jsonHeadBytes ++ List.replicate 249 65 ++ List.replicate 20527 65)

/-!
## Helper lemmas
-/

def recsW3 : List PyVal :=
  [PyVal.dict [(strongOverwriteKey, PyVal.bool true)],
   PyVal.dict [(strongOverwriteKey, PyVal.str (strCodes "true"))]]

/-- Pairwise distinctness (under Python key equality) of the grouped-table
keys. -/
def keysDistinct (t : List (PyVal × (Nat × List (PyVal × Nat)))) : Prop :=
  List.Pairwise (fun p q => keyEq p.1 q.1 = false) t

def docW6 : PyVal := .dict [(recordsKey, .list
  [.dict [(tableNameKey, .str (strCodes "users")), (actionKey, .str (strCodes "insert"))],
   .dict [(tableNameKey, .str (strCodes "users")), (actionKey, .str deleteCodes)],
   .dict [],
   .dict [(tableNameKey, .str (strCodes "orders")), (actionKey, .str (strCodes "insert"))]])]

def rsW4 : List PyVal :=
  [.dict [(tableNameKey, .str (strCodes "users")), (actionKey, .str (strCodes "insert"))],
   .dict [(tableNameKey, .str (strCodes "users")), (actionKey, .str deleteCodes)],
   .dict [(tableNameKey, .str (strCodes "products")), (actionKey, .str (strCodes "update"))],
   .dict [(tableNameKey, .str (strCodes "orders")), (actionKey, .str (strCodes "insert"))]]

def docW4 : PyVal := .dict [(recordsKey, .list rsW4)]

def gW4 : List (PyVal × (Nat × List (PyVal × Nat))) :=
  [(.str (strCodes "users"), (2, [(.str (strCodes "insert"), 1), (.str deleteCodes, 1)])),
   (.str (strCodes "products"), (1, [(.str (strCodes "update"), 1)])),
   (.str (strCodes "orders"), (1, [(.str (strCodes "insert"), 1)]))]

def tsW4 : List TableInfo := gW4.map mkTableInfo

def contRestC2 : List Nat :=
  List.replicate 249 65 ++ ([49, 47, 80, 1071] ++ (List.replicate 65016 65 ++ [34, 125]))

/-- The code points of `payloadC2`: the two-byte character decodes to
U+042F (1071). -/
def cpsC2 : List Nat := 123 :: 34 :: 107 :: 34 :: 58 :: 34 :: contRestC2


theorem foldRecordSteps_ok (rs : List PyVal) (h : ∀ r ∈ rs, isDictVal r = true)
    (st : RecordStats) :
    foldRecordSteps rs st =
      .ok ⟨st.total, st.deletes + rs.countP deleteFlag,
           st.strong_overwrites + rs.countP strongFlagIsTrue⟩ := by
  induction rs generalizing st with
  | nil => simp [foldRecordSteps]
  | cons r rest ih =>
    have hr := h r (List.mem_cons_self r rest)
    have hrest := fun x hx => h x (List.mem_cons_of_mem r hx)
    cases r with
    | dict e =>
      simp only [foldRecordSteps, recordStep]
      rw [ih hrest]
      simp only [List.countP_cons, deleteFlag, strongFlagIsTrue]
      split <;> split <;> simp_all <;> omega
    | none => simp [isDictVal] at hr
    | bool b => simp [isDictVal] at hr
    | int n => simp [isDictVal] at hr
    | float t => simp [isDictVal] at hr
    | str s => simp [isDictVal] at hr
    | list xs => simp [isDictVal] at hr

/-!
## Claim theorems
-/

/-- C3: for every document whose record list consists of mappings, the
strong-overwrite count computed by `analyze_records` equals the number of
records whose `is_strong_overwrite` value is exactly the boolean `True`
(and the delete count the number of `'delete'` actions); a record whose
`is_strong_overwrite` value is the string `"true"` never satisfies the
counting predicate. -/
theorem C3_strong_overwrite_count (data : PyVal) (rs : List PyVal)
    (hrs : getRecords data = .ok rs) (hd : ∀ r ∈ rs, isDictVal r = true) :
    analyzeRecords data = .ok ⟨rs.length, rs.countP deleteFlag, rs.countP strongFlagIsTrue⟩ ∧
    ∀ e, pyGet e strongOverwriteKey = some (.str (strCodes "true")) →
      strongFlagIsTrue (.dict e) = false := by
  constructor
  · simp [analyzeRecords, hrs, foldRecordSteps_ok rs hd]
  · intro e he
    simp [strongFlagIsTrue, isTrueVal, he]

theorem C3_witness :
    analyzeRecords (.dict [(recordsKey, .list recsW3)]) = .ok ⟨2, 0, 1⟩ ∧
    strongFlagIsTrue (.dict [(strongOverwriteKey, .str (strCodes "true"))]) = false := by
  have h := C3_strong_overwrite_count (.dict [(recordsKey, .list recsW3)]) recsW3 rfl
    (by decide)
  exact ⟨h.1, h.2 [(strongOverwriteKey, .str (strCodes "true"))] rfl⟩

/-- C9 (counterexample): on a document with no `name` field, `get_metadata`
returns the fixed Russian default `'Неизвестно'`, which is not the string
`"unknown"` claimed by the specification. -/
theorem C9_counterexample :
    getMetadata (.dict []) = .ok (.dict
      [(nameKey, .str neizvestnoCodes), (packAppIdKey, .str neizvestnoCodes),
       (timestampKey, .none), (versionKey, .str neizvestnoCodes)]) ∧
    neizvestnoCodes ≠ strCodes "unknown" := ⟨rfl, by decide⟩

/-- C9 (amended): for every successfully decoded document lacking the
`name` field, `get_metadata` uses the fixed default string `'Неизвестно'`
(not `"unknown"`) as the document name. -/
theorem C9_metadata_name_default (e : List (List Nat × PyVal))
    (h : pyGet e nameKey = Option.none) :
    getMetadata (.dict e) = .ok (.dict
      [(nameKey, .str neizvestnoCodes),
       (packAppIdKey, pyGetD e packAppIdKey (.str neizvestnoCodes)),
       (timestampKey, pyGetD e timestampKey .none),
       (versionKey, pyGetD e versionKey (.str neizvestnoCodes))]) ∧
    neizvestnoCodes ≠ strCodes "unknown" := by
  refine ⟨?_, by decide⟩
  simp [getMetadata, pyGetD, h]

theorem C9_witness :
    getMetadata (.dict [(versionKey, .str (strCodes "1.0"))]) = .ok (.dict
      [(nameKey, .str neizvestnoCodes),
       (packAppIdKey, .str neizvestnoCodes),
       (timestampKey, .none),
       (versionKey, .str (strCodes "1.0"))]) ∧
    neizvestnoCodes ≠ strCodes "unknown" := by
  have h := C9_metadata_name_default [(versionKey, .str (strCodes "1.0"))] rfl
  exact ⟨h.1, h.2⟩

/-- C10 (counterexample): a `.data` entry holding a raw deflate of the
four bytes `null` loads successfully with document `null`, yet the
`_data` attribute afterwards still holds Python `None` — the unset
sentinel — so a second call against a now-missing file re-runs the whole
pipeline and fails instead of returning the cached document, refuting
"after one successful load_data, every later call returns the identical
cached document". -/
theorem C10_counterexample :
    loadData PyVal.none
      (.archive [(strCodes "a.data", [1, 4, 0, 251, 255, 110, 117, 108, 108])]) =
      (.ok PyVal.none, PyVal.none) ∧
    loadData PyVal.none ZipSource.missing = (.error .fileNotFound, PyVal.none) :=
  ⟨rfl, rfl⟩

/-- C10 (amended): an uncached call runs the full pipeline; on failure the
`_data` sentinel stays unset, so the next call runs the full pipeline
again; a success assigns the decoded document to `_data`, and every later
call returns a non-null cached document unchanged without consulting the
source — but a successful load of the JSON `null` document leaves the
sentinel indistinguishable from unset, and later calls re-run the
pipeline. -/
theorem C10_cache_amended (src : ZipSource) :
    (loadData PyVal.none src).1 = loadDataOnce src ∧
    (∀ e, loadDataOnce src = .error e → loadData PyVal.none src = (.error e, PyVal.none)) ∧
    (∀ d, loadDataOnce src = .ok d → loadData PyVal.none src = (.ok d, d)) ∧
    (∀ d, d ≠ PyVal.none → ∀ src2, loadData d src2 = (.ok d, d)) := by
  refine ⟨?_, fun e he => ?_, fun d hd => ?_, fun d hne src2 => ?_⟩
  · cases h : loadDataOnce src <;> simp [loadData, h]
  · simp [loadData, he]
  · simp [loadData, hd]
  · cases d with
    | none => exact absurd rfl hne
    | _ => rfl

theorem C10_witness :
    loadData PyVal.none ZipSource.missing = (.error .fileNotFound, PyVal.none) ∧
    loadData PyVal.none (.archive [(strCodes "a.data", [1, 2, 0, 253, 255, 123, 125])]) =
      (.ok (PyVal.dict []), PyVal.dict []) ∧
    loadData (PyVal.dict []) ZipSource.badZip = (.ok (PyVal.dict []), PyVal.dict []) := by
  refine ⟨(C10_cache_amended ZipSource.missing).2.1 .fileNotFound rfl, ?_, ?_⟩
  · exact (C10_cache_amended
      (ZipSource.archive [(strCodes "a.data", [1, 2, 0, 253, 255, 123, 125])])).2.2.1
      (PyVal.dict []) rfl
  · exact (C10_cache_amended ZipSource.badZip).2.2.2 (PyVal.dict []) (by simp)
      ZipSource.badZip

/-- C7: loading from a parseable archive with no entry named `*.data`
fails with the dedicated missing-data-entry error, which is distinct from
every other failure kind of the pipeline. -/
theorem C7_missing_data_entry (entries : List (List Nat × Bytes))
    (h : ∀ e ∈ entries, endsWithData e.1 = false) :
    loadData PyVal.none (.archive entries) = (.error .missingDataEntry, PyVal.none) ∧
    SopError.missingDataEntry ≠ SopError.fileNotFound ∧
    SopError.missingDataEntry ≠ SopError.corruptContainer ∧
    SopError.missingDataEntry ≠ SopError.decompressionExhausted ∧
    (∀ m, SopError.missingDataEntry ≠ SopError.unicodeDecodeError m) ∧
    (∀ m, SopError.missingDataEntry ≠ SopError.jsonParseError m) := by
  have hfil : entries.filter (fun e => endsWithData e.1) = [] := by
    rw [List.filter_eq_nil_iff]
    intro a ha
    simp [h a ha]
  exact ⟨by simp [loadData, loadDataOnce, hfil], by decide, by decide, by decide,
    fun m => by simp, fun m => by simp⟩

theorem C7_witness :
    loadData PyVal.none (.archive [(strCodes "metadata.json", [1, 2, 3])]) =
      (.error .missingDataEntry, PyVal.none) := by
  exact (C7_missing_data_entry [(strCodes "metadata.json", [1, 2, 3])] (by decide)).1

/-- C8 (counterexample): when every strategy fails, the raised error is the
fixed-message exhaustion `ValueError`; it is identical for inputs whose
per-strategy failure reasons differ, so it does not carry the reasons list
(the reasons appear only in the printed attempt diagnostics). -/
theorem C8_counterexample :
    decompressData [] = .error exhaustedMsg ∧
    decompressData [7] = .error exhaustedMsg ∧
    decompressTrace [] ≠ decompressTrace [7] := by
  refine ⟨rfl, rfl, fun heq => ?_⟩
  have h2 := congrArg (List.map fun p : String × Except String Bytes =>
    match p.2 with
    | .error e => e
    | .ok _ => "") heq
  revert h2
  decide

/-- C8 (amended): when all four strategies fail on an input, the
decompressor fails with the single fixed-message exhaustion error — no
individual strategy's exception propagates — and every strategy is
attempted, its failure reason appearing only in the printed diagnostics
trace. -/
theorem C8_exhaustion_fixed_error (d : Bytes)
    (h : ∀ j, j < 4 → (methodResult j d).isOk = false) :
    decompressData d = .error exhaustedMsg ∧
    decompressTrace d = decompressMethods.map fun m => (m.1, m.2 d) := by
  have h0 := h 0 (by omega)
  have h1 := h 1 (by omega)
  have h2 := h 2 (by omega)
  have h3 := h 3 (by omega)
  simp only [methodResult, decompressMethods, List.get?] at h0 h1 h2 h3
  obtain ⟨e0, he0⟩ : ∃ e, tryRawDeflate d = .error e := by
    cases hx : tryRawDeflate d
    · exact ⟨_, rfl⟩
    · rw [hx] at h0; simp [Except.isOk, Except.toBool] at h0
  obtain ⟨e1, he1⟩ : ∃ e, tryZlibDeflate d = .error e := by
    cases hx : tryZlibDeflate d
    · exact ⟨_, rfl⟩
    · rw [hx] at h1; simp [Except.isOk, Except.toBool] at h1
  obtain ⟨e2, he2⟩ : ∃ e, tryGzipFormat d = .error e := by
    cases hx : tryGzipFormat d
    · exact ⟨_, rfl⟩
    · rw [hx] at h2; simp [Except.isOk, Except.toBool] at h2
  obtain ⟨e3, he3⟩ : ∃ e, tryWithHeaders d = .error e := by
    cases hx : tryWithHeaders d
    · exact ⟨_, rfl⟩
    · rw [hx] at h3; simp [Except.isOk, Except.toBool] at h3
  constructor
  · simp [decompressData, decompressLoop, decompressMethods, he0, he1, he2, he3]
  · simp [decompressTrace, decompressTraceLoop, decompressMethods, he0, he1, he2, he3]

theorem C8_witness :
    decompressData [255] = .error exhaustedMsg ∧
    decompressTrace [255] = decompressMethods.map fun m => (m.1, m.2 [255]) := by
  exact C8_exhaustion_fixed_error [255] (by decide)

/-- C1: the decompressor applies exactly the four strategies raw inflate,
zlib inflate, synthetic gzip wrap, header-guess fallback, in that fixed
order; if the first `k` fail and strategy `k` succeeds, its output is
returned and the attempt trace stops there — no later strategy runs. -/
theorem C1_strategy_order (d : Bytes) (k : Nat) (r : Bytes) (hk : k < 4)
    (hprev : ∀ j, j < k → (methodResult j d).isOk = false)
    (hcur : methodResult k d = .ok r) :
    decompressMethods.map Prod.fst =
      ["_try_raw_deflate", "_try_zlib_deflate", "_try_gzip_format", "_try_with_headers"] ∧
    decompressData d = .ok r ∧
    decompressTrace d = (decompressMethods.take (k + 1)).map fun m => (m.1, m.2 d) := by
  refine ⟨rfl, ?_⟩
  match k with
  | 0 =>
    simp only [methodResult, decompressMethods, List.get?] at hcur
    constructor
    · simp [decompressData, decompressLoop, decompressMethods, hcur]
    · simp [decompressTrace, decompressTraceLoop, decompressMethods, hcur]
  | 1 =>
    have h0 := hprev 0 (by omega)
    simp only [methodResult, decompressMethods, List.get?] at hcur h0
    obtain ⟨e0, he0⟩ : ∃ e, tryRawDeflate d = .error e := by
      cases hx : tryRawDeflate d
      · exact ⟨_, rfl⟩
      · rw [hx] at h0; simp [Except.isOk, Except.toBool] at h0
    constructor
    · simp [decompressData, decompressLoop, decompressMethods, he0, hcur]
    · simp [decompressTrace, decompressTraceLoop, decompressMethods, he0, hcur]
  | 2 =>
    have h0 := hprev 0 (by omega)
    have h1 := hprev 1 (by omega)
    simp only [methodResult, decompressMethods, List.get?] at hcur h0 h1
    obtain ⟨e0, he0⟩ : ∃ e, tryRawDeflate d = .error e := by
      cases hx : tryRawDeflate d
      · exact ⟨_, rfl⟩
      · rw [hx] at h0; simp [Except.isOk, Except.toBool] at h0
    obtain ⟨e1, he1⟩ : ∃ e, tryZlibDeflate d = .error e := by
      cases hx : tryZlibDeflate d
      · exact ⟨_, rfl⟩
      · rw [hx] at h1; simp [Except.isOk, Except.toBool] at h1
    constructor
    · simp [decompressData, decompressLoop, decompressMethods, he0, he1, hcur]
    · simp [decompressTrace, decompressTraceLoop, decompressMethods, he0, he1, hcur]
  | 3 =>
    have h0 := hprev 0 (by omega)
    have h1 := hprev 1 (by omega)
    have h2 := hprev 2 (by omega)
    simp only [methodResult, decompressMethods, List.get?] at hcur h0 h1 h2
    obtain ⟨e0, he0⟩ : ∃ e, tryRawDeflate d = .error e := by
      cases hx : tryRawDeflate d
      · exact ⟨_, rfl⟩
      · rw [hx] at h0; simp [Except.isOk, Except.toBool] at h0
    obtain ⟨e1, he1⟩ : ∃ e, tryZlibDeflate d = .error e := by
      cases hx : tryZlibDeflate d
      · exact ⟨_, rfl⟩
      · rw [hx] at h1; simp [Except.isOk, Except.toBool] at h1
    obtain ⟨e2, he2⟩ : ∃ e, tryGzipFormat d = .error e := by
      cases hx : tryGzipFormat d
      · exact ⟨_, rfl⟩
      · rw [hx] at h2; simp [Except.isOk, Except.toBool] at h2
    constructor
    · simp [decompressData, decompressLoop, decompressMethods, he0, he1, he2, hcur]
    · simp [decompressTrace, decompressTraceLoop, decompressMethods, he0, he1, he2, hcur]
  | n + 4 => omega

theorem C1_witness :
    decompressData [1, 0, 0, 255, 255] = .ok [] ∧
    decompressTrace [1, 0, 0, 255, 255] =
      (decompressMethods.take 1).map fun m => (m.1, m.2 [1, 0, 0, 255, 255]) := by
  have h := C1_strategy_order [1, 0, 0, 255, 255] 0 [] (by omega)
    (fun j hj => absurd hj (by omega)) rfl
  exact ⟨h.2.1, h.2.2⟩

/-- C5 (counterexample): a byte sequence exists that is a complete raw
deflate stream on which strategy 1 succeeds while strategy 2 also succeeds
(it is simultaneously a valid zlib stream), contradicting "strategy 2 fails
on that same input". -/
theorem C5_counterexample :
    (tryRawDeflate dualFramedBytes).isOk = true ∧
    (tryZlibDeflate dualFramedBytes).isOk = true := ⟨rfl, rfl⟩

/-- C5 (amended): on every byte sequence that raw inflate accepts,
strategy 1 succeeds and the decompressor returns strategy 1's output (so a
zlib interpretation is never used); strategy 2 need not fail, since bytes
can be valid under both framings. -/
theorem C5_raw_stream_first_strategy (d g : Bytes) (h : rawInflate d = .ok g) :
    tryRawDeflate d = .ok g ∧ decompressData d = .ok g := by
  refine ⟨h, ?_⟩
  simp [decompressData, decompressLoop, decompressMethods, tryRawDeflate, h]

theorem C5_witness :
    tryRawDeflate [1, 2, 0, 253, 255, 123, 125] = .ok [123, 125] ∧
    decompressData [1, 2, 0, 253, 255, 123, 125] = .ok [123, 125] :=
  C5_raw_stream_first_strategy [1, 2, 0, 253, 255, 123, 125] [123, 125] rfl

/-- C2 (amended): the round-trip law holds for every document and zlib
stream whose bytes raw inflate rejects: if the serialized bytes parse back
to the document and the entry bytes are a valid zlib-wrapped stream on
which strategy 1 fails, decompress-then-parse reconstructs the document. -/
theorem C2_roundtrip_amended (d : PyVal) (b c : Bytes)
    (hdoc : parseDocBytes b = .ok d)
    (hzlib : zlibInflate c = .ok b)
    (hraw : (rawInflate c).isOk = false) :
    decodeEntryBytes c = .ok d := by
  obtain ⟨e0, he0⟩ : ∃ e, rawInflate c = .error e := by
    cases hx : rawInflate c
    · exact ⟨_, rfl⟩
    · rw [hx] at hraw; simp [Except.isOk, Except.toBool] at hraw
  have hdec : decompressData c = .ok b := by
    simp [decompressData, decompressLoop, decompressMethods, tryRawDeflate, tryZlibDeflate,
      he0, hzlib]
  unfold parseDocBytes at hdoc
  cases hu : utf8Decode b with
  | error e => rw [hu] at hdoc; cases hdoc
  | ok cps =>
    rw [hu] at hdoc
    simp only [] at hdoc
    simp [decodeEntryBytes, hdec, hu, hdoc]

theorem C2_witness :
    decodeEntryBytes [120, 1, 1, 2, 0, 253, 255, 123, 125, 1, 117, 0, 249] =
      .ok (.dict []) := by
  exact C2_roundtrip_amended (.dict []) [123, 125]
    [120, 1, 1, 2, 0, 253, 255, 123, 125, 1, 117, 0, 249] rfl rfl rfl

theorem histInc_total (h : List (PyVal × Nat)) (k : PyVal) :
    histTotal (histInc h k) = histTotal h + 1 := by
  induction h with
  | nil => simp [histInc, histTotal]
  | cons p rest ih =>
    obtain ⟨k', n⟩ := p
    by_cases hk : keyEq k' k
    · simp [histInc, hk, histTotal]
      omega
    · simp [histInc, hk, histTotal] at ih ⊢
      omega

theorem tablesInc_total (t : List (PyVal × (Nat × List (PyVal × Nat)))) (tn a : PyVal) :
    tablesTotal (tablesInc t tn a) = tablesTotal t + 1 := by
  induction t with
  | nil => simp [tablesInc, tablesTotal]
  | cons p rest ih =>
    obtain ⟨k, c, acts⟩ := p
    by_cases hk : keyEq k tn
    · simp [tablesInc, hk, tablesTotal]
      omega
    · simp [tablesInc, hk, tablesTotal] at ih ⊢
      omega

theorem foldActionSteps_total (rs : List PyVal) (h : List (PyVal × Nat))
    (m : List (PyVal × Nat)) (hok : foldActionSteps rs h = .ok m) :
    histTotal m = histTotal h + rs.length := by
  induction rs generalizing h with
  | nil =>
    simp [foldActionSteps] at hok
    simp [hok]
  | cons r rest ih =>
    simp only [foldActionSteps] at hok
    cases hs : actionStep h r with
    | error e => rw [hs] at hok; cases hok
    | ok h' =>
      rw [hs] at hok
      have htot : histTotal h' = histTotal h + 1 := by
        cases r with
        | dict e =>
          simp only [actionStep] at hs
          split at hs
          · cases hs
            exact histInc_total h _
          · cases hs
        | none => simp [actionStep] at hs
        | bool b => simp [actionStep] at hs
        | int n => simp [actionStep] at hs
        | float t => simp [actionStep] at hs
        | str s => simp [actionStep] at hs
        | list xs => simp [actionStep] at hs
      have := ih h' hok
      simp [this, htot, List.length_cons]
      omega

theorem foldTableSteps_total (rs : List PyVal) (t g : List (PyVal × (Nat × List (PyVal × Nat))))
    (hok : foldTableSteps rs t = .ok g) :
    tablesTotal g = tablesTotal t + rs.length := by
  induction rs generalizing t with
  | nil =>
    simp [foldTableSteps] at hok
    simp [hok]
  | cons r rest ih =>
    simp only [foldTableSteps] at hok
    cases hs : tableStep t r with
    | error e => rw [hs] at hok; cases hok
    | ok t' =>
      rw [hs] at hok
      have htot : tablesTotal t' = tablesTotal t + 1 := by
        cases r with
        | dict e =>
          simp only [tableStep] at hs
          split at hs
          · split at hs
            · cases hs
              exact tablesInc_total t _ _
            · cases hs
          · cases hs
        | none => simp [tableStep] at hs
        | bool b => simp [tableStep] at hs
        | int n => simp [tableStep] at hs
        | float tk => simp [tableStep] at hs
        | str s => simp [tableStep] at hs
        | list xs => simp [tableStep] at hs
      have := ih t' hok
      simp [this, htot, List.length_cons]
      omega

theorem insertByCountDesc_perm (x : PyVal × (Nat × List (PyVal × Nat)))
    (l : List (PyVal × (Nat × List (PyVal × Nat)))) :
    List.Perm (insertByCountDesc x l) (x :: l) := by
  induction l with
  | nil => simp [insertByCountDesc]
  | cons y ys ih =>
    by_cases hx : x.2.1 < y.2.1
    · simp only [insertByCountDesc, if_pos hx]
      exact ((ih.cons y).trans (List.Perm.swap x y ys))
    · simp [insertByCountDesc, if_neg hx]

theorem sortByCountDesc_perm (l : List (PyVal × (Nat × List (PyVal × Nat)))) :
    List.Perm (sortByCountDesc l) l := by
  induction l with
  | nil => simp [sortByCountDesc]
  | cons x xs ih => exact (insertByCountDesc_perm x (sortByCountDesc xs)).trans (ih.cons x)

theorem insertByCountDesc_pairwise (x : PyVal × (Nat × List (PyVal × Nat)))
    (l : List (PyVal × (Nat × List (PyVal × Nat))))
    (hl : List.Pairwise (fun a b => b.2.1 ≤ a.2.1) l) :
    List.Pairwise (fun a b => b.2.1 ≤ a.2.1) (insertByCountDesc x l) := by
  induction l with
  | nil => simp [insertByCountDesc]
  | cons y ys ih =>
    rcases List.pairwise_cons.mp hl with ⟨hy, hys⟩
    by_cases hx : x.2.1 < y.2.1
    · simp only [insertByCountDesc, if_pos hx]
      refine List.pairwise_cons.mpr ⟨?_, ih hys⟩
      intro b hb
      have hb' := (insertByCountDesc_perm x ys).mem_iff.mp hb
      rcases List.mem_cons.mp hb' with rfl | hb''
      · omega
      · exact hy b hb''
    · simp only [insertByCountDesc, if_neg hx]
      refine List.pairwise_cons.mpr ⟨?_, hl⟩
      intro b hb
      rcases List.mem_cons.mp hb with rfl | hb'
      · omega
      · have := hy b hb'
        omega

theorem sortByCountDesc_pairwise (l : List (PyVal × (Nat × List (PyVal × Nat)))) :
    List.Pairwise (fun a b => b.2.1 ≤ a.2.1) (sortByCountDesc l) := by
  induction l with
  | nil => simp [sortByCountDesc]
  | cons x xs ih => exact insertByCountDesc_pairwise x (sortByCountDesc xs) ih

theorem filter_insertByCountDesc (x : PyVal × (Nat × List (PyVal × Nat)))
    (l : List (PyVal × (Nat × List (PyVal × Nat)))) (c : Nat) :
    (insertByCountDesc x l).filter (fun p => p.2.1 = c) =
      if x.2.1 = c then x :: l.filter (fun p => p.2.1 = c)
      else l.filter (fun p => p.2.1 = c) := by
  induction l with
  | nil =>
    by_cases hx : x.2.1 = c <;> simp [insertByCountDesc, List.filter, hx]
  | cons y ys ih =>
    simp only [insertByCountDesc]
    by_cases hlt : x.2.1 < y.2.1
    · rw [if_pos hlt, List.filter_cons, ih]
      by_cases hy : y.2.1 = c
      · have hx : ¬ x.2.1 = c := by omega
        simp [hy, hx, List.filter_cons]
      · simp [hy]
    · rw [if_neg hlt, List.filter_cons, List.filter_cons]
      by_cases hx : x.2.1 = c <;> simp [hx, List.filter_cons]

theorem filter_sortByCountDesc (l : List (PyVal × (Nat × List (PyVal × Nat)))) (c : Nat) :
    (sortByCountDesc l).filter (fun p => p.2.1 = c) = l.filter (fun p => p.2.1 = c) := by
  induction l with
  | nil => simp [sortByCountDesc]
  | cons x xs ih =>
    by_cases hx : x.2.1 = c <;>
      simp [sortByCountDesc, filter_insertByCountDesc, hx, List.filter_cons, ih]

theorem keyEq_symm (a b : PyVal) : keyEq a b = keyEq b a := by
  cases a <;> cases b <;> simp [keyEq, eq_comm]

theorem mem_tablesInc (q : PyVal × (Nat × List (PyVal × Nat)))
    (t : List (PyVal × (Nat × List (PyVal × Nat)))) (tn a : PyVal)
    (hq : q ∈ tablesInc t tn a) : (∃ p ∈ t, q.1 = p.1) ∨ q.1 = tn := by
  induction t with
  | nil =>
    simp [tablesInc] at hq
    simp [hq]
  | cons p rest ih =>
    obtain ⟨k, c, acts⟩ := p
    by_cases hk : keyEq k tn
    · simp only [tablesInc, if_pos hk] at hq
      rcases List.mem_cons.mp hq with rfl | hq'
      · exact Or.inl ⟨(k, c, acts), List.mem_cons_self _ _, rfl⟩
      · exact Or.inl ⟨q, List.mem_cons_of_mem _ hq', rfl⟩
    · simp only [tablesInc, if_neg hk] at hq
      rcases List.mem_cons.mp hq with rfl | hq'
      · exact Or.inl ⟨(k, c, acts), List.mem_cons_self _ _, rfl⟩
      · rcases ih hq' with ⟨p', hp', he⟩ | he
        · exact Or.inl ⟨p', List.mem_cons_of_mem _ hp', he⟩
        · exact Or.inr he

theorem tablesInc_keysDistinct (t : List (PyVal × (Nat × List (PyVal × Nat)))) (tn a : PyVal)
    (h : keysDistinct t) : keysDistinct (tablesInc t tn a) := by
  induction t with
  | nil => simp [tablesInc, keysDistinct]
  | cons p rest ih =>
    obtain ⟨k, c, acts⟩ := p
    rcases List.pairwise_cons.mp h with ⟨hk0, hrest⟩
    by_cases hk : keyEq k tn
    · simp only [tablesInc, if_pos hk]
      exact List.pairwise_cons.mpr ⟨fun q hq => hk0 q hq, hrest⟩
    · simp only [tablesInc, if_neg hk]
      refine List.pairwise_cons.mpr ⟨?_, ih hrest⟩
      intro q hq
      rcases mem_tablesInc q rest tn a hq with ⟨p', hp', he⟩ | he
      · rw [he]
        exact hk0 p' hp'
      · rw [he]
        exact eq_false_of_ne_true (fun hc => hk hc)

theorem foldTableSteps_keysDistinct (rs : List PyVal)
    (t g : List (PyVal × (Nat × List (PyVal × Nat))))
    (hok : foldTableSteps rs t = .ok g) (ht : keysDistinct t) : keysDistinct g := by
  induction rs generalizing t with
  | nil =>
    simp [foldTableSteps] at hok
    rw [← hok]
    exact ht
  | cons r rest ih =>
    simp only [foldTableSteps] at hok
    cases hs : tableStep t r with
    | error e => rw [hs] at hok; cases hok
    | ok t' =>
      rw [hs] at hok
      refine ih t' hok ?_
      cases r with
      | dict e =>
        simp only [tableStep] at hs
        split at hs
        · split at hs
          · cases hs
            exact tablesInc_keysDistinct t _ _ ht
          · cases hs
        · cases hs
      | none => simp [tableStep] at hs
      | bool b => simp [tableStep] at hs
      | int n => simp [tableStep] at hs
      | float tk => simp [tableStep] at hs
      | str s => simp [tableStep] at hs
      | list xs => simp [tableStep] at hs

theorem keyEqFalse_symmetric :
    Symmetric fun p q : PyVal × (Nat × List (PyVal × Nat)) => keyEq p.1 q.1 = false := by
  intro p q h
  rw [keyEq_symm]
  exact h

/-- C6: whenever the actions summary and the table analysis succeed on a
document, the summary's values sum to the number of records, and the table
entries' record counts also sum to the number of records — every record
lands in exactly one bucket. -/
theorem C6_bucket_sums (data : PyVal) (rs : List PyVal) (m : List (PyVal × Nat))
    (ts : List TableInfo)
    (hrs : getRecords data = .ok rs)
    (hm : getActionsSummary data = .ok m)
    (hts : analyzeTables data = .ok ts) :
    histTotal m = rs.length ∧ (ts.map TableInfo.record_count).sum = rs.length := by
  constructor
  · simp only [getActionsSummary, hrs] at hm
    have := foldActionSteps_total rs [] m hm
    simpa [histTotal] using this
  · simp only [analyzeTables, hrs] at hts
    cases hfold : foldTableSteps rs [] with
    | error e => rw [hfold] at hts; cases hts
    | ok g =>
      rw [hfold] at hts
      have hg := foldTableSteps_total rs [] g hfold
      have hts' : ts = (sortByCountDesc g).map mkTableInfo := by
        cases hts
        rfl
      have hperm : List.Perm (sortByCountDesc g) g := sortByCountDesc_perm g
      have hsum : ((sortByCountDesc g).map fun p => p.2.1).sum = (g.map fun p => p.2.1).sum :=
        (hperm.map fun p => p.2.1).sum_eq
      rw [hts']
      have : ((sortByCountDesc g).map mkTableInfo).map TableInfo.record_count =
          (sortByCountDesc g).map fun p => p.2.1 := by
        simp [mkTableInfo, Function.comp]
      rw [this, hsum]
      simpa [tablesTotal] using hg

theorem C6_witness :
    histTotal [(PyVal.str (strCodes "insert"), 2), (PyVal.str deleteCodes, 1),
      (PyVal.str unknownCodes, 1)] = 4 ∧
    ([TableInfo.mk (PyVal.str (strCodes "users")) 2
        [(PyVal.str (strCodes "insert"), 1), (PyVal.str deleteCodes, 1)],
      TableInfo.mk (PyVal.str unknownCodes) 1 [(PyVal.str unknownCodes, 1)],
      TableInfo.mk (PyVal.str (strCodes "orders")) 1 [(PyVal.str (strCodes "insert"), 1)]].map
        TableInfo.record_count).sum = 4 := by
  have h := C6_bucket_sums docW6
    [.dict [(tableNameKey, .str (strCodes "users")), (actionKey, .str (strCodes "insert"))],
     .dict [(tableNameKey, .str (strCodes "users")), (actionKey, .str deleteCodes)],
     .dict [],
     .dict [(tableNameKey, .str (strCodes "orders")), (actionKey, .str (strCodes "insert"))]]
    [(PyVal.str (strCodes "insert"), 2), (PyVal.str deleteCodes, 1), (PyVal.str unknownCodes, 1)]
    [TableInfo.mk (PyVal.str (strCodes "users")) 2
        [(PyVal.str (strCodes "insert"), 1), (PyVal.str deleteCodes, 1)],
      TableInfo.mk (PyVal.str unknownCodes) 1 [(PyVal.str unknownCodes, 1)],
      TableInfo.mk (PyVal.str (strCodes "orders")) 1 [(PyVal.str (strCodes "insert"), 1)]]
    rfl rfl rfl
  exact h

/-- C4: `analyze_tables` returns the stable descending sort (by record
count) of the per-table groups in first-appearance order: the result is the
groups reordered (a permutation, one entry per distinct table name — names
pairwise distinct), record counts are non-increasing, and for every count
value the entries with that count appear exactly in first-appearance order.
Determinism of repeated runs is definitional (a pure function of the
document). -/
theorem C4_table_ordering (data : PyVal) (rs : List PyVal)
    (g : List (PyVal × (Nat × List (PyVal × Nat)))) (ts : List TableInfo)
    (hrs : getRecords data = .ok rs) (hg : foldTableSteps rs [] = .ok g)
    (hts : analyzeTables data = .ok ts) :
    ts = (sortByCountDesc g).map mkTableInfo ∧
    List.Perm ts (g.map mkTableInfo) ∧
    List.Pairwise (fun a b => b.record_count ≤ a.record_count) ts ∧
    (∀ c, ts.filter (fun ti => ti.record_count = c) =
      (g.filter (fun p => p.2.1 = c)).map mkTableInfo) ∧
    List.Pairwise (fun a b => keyEq a.name b.name = false) ts := by
  simp only [analyzeTables, hrs, hg] at hts
  have hts' : ts = (sortByCountDesc g).map mkTableInfo := by
    cases hts
    rfl
  subst hts'
  refine ⟨rfl, (sortByCountDesc_perm g).map mkTableInfo, ?_, ?_, ?_⟩
  · rw [List.pairwise_map]
    exact sortByCountDesc_pairwise g
  · intro c
    rw [List.filter_map]
    have : (fun ti => decide (TableInfo.record_count ti = c)) ∘ mkTableInfo =
        fun p => decide (p.2.1 = c) := by
      funext p
      simp [mkTableInfo]
    rw [this, filter_sortByCountDesc]
  · rw [List.pairwise_map]
    have hdist : keysDistinct g := foldTableSteps_keysDistinct rs [] g hg (by simp [keysDistinct])
    have : keysDistinct (sortByCountDesc g) :=
      (List.Perm.pairwise_iff (fun hxy => keyEqFalse_symmetric hxy)
        (sortByCountDesc_perm g)).mpr hdist
    exact this

theorem C4_witness :
    tsW4 = (sortByCountDesc gW4).map mkTableInfo ∧
    List.Perm tsW4 (gW4.map mkTableInfo) ∧
    List.Pairwise (fun a b => b.record_count ≤ a.record_count) tsW4 ∧
    tsW4.filter (fun ti => ti.record_count = 1) =
      (gW4.filter (fun p => p.2.1 = 1)).map mkTableInfo ∧
    List.Pairwise (fun a b => keyEq a.name b.name = false) tsW4 := by
  have h := C4_table_ordering docW4 rsW4 gW4 tsW4 rfl rfl rfl
  exact ⟨h.1, h.2.1, h.2.2.1, h.2.2.2.1 1, h.2.2.2.2⟩

/-!
## Evaluation lemmas for the round-trip counterexample

Kernel evaluation of 65-kilobyte inputs is avoided by computing the stored
block walk of `inflateBlocks` symbolically over the `replicate`/append
structure of the input.
-/

theorem readBits_one (h : Nat) (rest : Bytes) :
    readBits 1 ⟨0, 0, h :: rest⟩ = .ok (h % 2, ⟨h / 2, 7, rest⟩) := by
  simp [readBits, readBit]

theorem readBits_two (a : Nat) (rest : Bytes) :
    readBits 2 ⟨a, 7, rest⟩ = .ok (a % 2 + 2 * (a / 2 % 2), ⟨a / 2 / 2, 5, rest⟩) := by
  simp [readBits, readBit]

/-- One stored block (`BTYPE = 00`) consumed from a byte-aligned state. -/
theorem inflateBlocks_stored (fuel h l0 l1 n0 n1 : Nat) (r out : Bytes)
    (ht : h / 2 % 4 = 0)
    (hsum : (l0 + 256 * l1) + (n0 + 256 * n1) = 65535)
    (hlen : l0 + 256 * l1 ≤ r.length) :
    inflateBlocks (fuel + 1) ⟨0, 0, h :: l0 :: l1 :: n0 :: n1 :: r⟩ out =
      if h % 2 = 1 then
        .ok (List.reverseAux (r.take (l0 + 256 * l1)) out, ⟨0, 0, r.drop (l0 + 256 * l1)⟩)
      else inflateBlocks fuel ⟨0, 0, r.drop (l0 + 256 * l1)⟩
        (List.reverseAux (r.take (l0 + 256 * l1)) out) := by
  have hb1 : h / 2 % 2 = 0 := by omega
  have hb2 : h / 2 / 2 % 2 = 0 := by omega
  simp only [inflateBlocks, readBits_one, readBits_two, hb1, hb2]
  simp only [alignByte]
  simp [hsum, hlen]

theorem payloadC2_length : payloadC2.length = 65278 := by
  rw [payloadC2, jsonHeadBytes]
  rw [List.length_append, List.length_append, List.length_append, List.length_append]
  rw [List.length_replicate, List.length_replicate]
  norm_num

theorem adlerBE_length (b : Bytes) : (adlerBE b).length = 4 := rfl

theorem cC2_eq : zlibCompress0 payloadC2 =
    120 :: 1 :: 1 :: 254 :: 254 :: 1 :: 1 :: (payloadC2 ++ adlerBE payloadC2) := by
  rw [zlibCompress0, storedBlocks, payloadC2_length]
  norm_num

theorem payloadC2_assoc : payloadC2 =
    jsonHeadBytes ++ (List.replicate 249 65 ++ ([49, 47, 80, 208, 175] ++
      (List.replicate 65016 65 ++ [34, 125]))) := by
  rw [payloadC2]
  simp only [List.append_assoc]

theorem jsonHeadBytes_length : jsonHeadBytes.length = 6 := by decide

theorem take255_payloadC2 :
    payloadC2.take 255 = jsonHeadBytes ++ List.replicate 249 65 := by
  rw [payloadC2_assoc, List.take_append_eq_append_take,
    (by decide : jsonHeadBytes.take 255 = jsonHeadBytes), jsonHeadBytes_length,
    (by norm_num : 255 - 6 = 249), List.take_append_eq_append_take, List.take_replicate,
    List.length_replicate]
  norm_num [List.take_zero]

theorem drop255_payloadC2 :
    payloadC2.drop 255 =
      49 :: 47 :: 80 :: 208 :: 175 :: (List.replicate 65016 65 ++ [34, 125]) := by
  rw [payloadC2_assoc, List.drop_append_eq_append_drop,
    (by decide : jsonHeadBytes.drop 255 = []), jsonHeadBytes_length,
    (by norm_num : 255 - 6 = 249), List.drop_append_eq_append_drop, List.drop_replicate,
    List.length_replicate]
  norm_num [List.drop_zero]

theorem cC2_length :
    (120 :: 1 :: 1 :: 254 :: 254 :: 1 :: 1 :: (payloadC2 ++ adlerBE payloadC2)).length =
      65289 := by
  rw [List.length_cons, List.length_cons, List.length_cons, List.length_cons,
    List.length_cons, List.length_cons, List.length_cons, List.length_append,
    payloadC2_length, adlerBE_length]

theorem rawInflate_cC2 : rawInflate (zlibCompress0 payloadC2) = .ok gC2 := by
  rw [cC2_eq, rawInflate, cC2_length]
  rw [show (8 * 65289 + 8 : Nat) = 522319 + 1 from by norm_num]
  rw [inflateBlocks_stored 522319 120 1 1 254 254 _ [] (by norm_num) (by norm_num)
    (by rw [List.length_cons, List.length_cons, List.length_append, payloadC2_length,
          adlerBE_length]
        norm_num)]
  rw [if_neg (by norm_num)]
  rw [show (1 + 256 * 1 : Nat) = 257 from by norm_num]
  rw [show (257 : Nat) = 256 + 1 from rfl, List.take_succ_cons, List.drop_succ_cons,
    show (256 : Nat) = 255 + 1 from rfl, List.take_succ_cons, List.drop_succ_cons]
  rw [List.take_append_eq_append_take, List.drop_append_eq_append_drop, payloadC2_length,
    show (255 - 65278 : Nat) = 0 from by norm_num, List.take_zero, List.drop_zero,
    List.append_nil, take255_payloadC2, drop255_payloadC2]
  rw [List.cons_append, List.cons_append, List.cons_append, List.cons_append,
    List.cons_append, List.append_assoc, List.cons_append, List.cons_append,
    List.nil_append]
  rw [show (522319 : Nat) = 522318 + 1 from rfl]
  rw [inflateBlocks_stored 522318 49 47 80 208 175 _ _ (by norm_num) (by norm_num)
    (by rw [List.length_append, List.length_replicate, List.length_cons, List.length_cons,
          adlerBE_length]
        norm_num)]
  rw [if_pos (by norm_num)]
  rw [show (47 + 256 * 80 : Nat) = 20527 from by norm_num]
  rw [List.take_append_eq_append_take, List.take_replicate, List.length_replicate,
    show min 20527 65016 = 20527 from by norm_num,
    show (20527 - 65016 : Nat) = 0 from by norm_num, List.take_zero, List.append_nil]
  show Except.ok _ = _
  rw [List.reverseAux_eq, List.reverseAux_eq, List.append_nil, List.reverse_append,
    List.reverse_reverse, List.reverse_reverse]
  rw [gC2]
  rw [List.cons_append, List.cons_append, List.append_assoc]

theorem escapeList_append (a b : List Nat) :
    escapeList (a ++ b) = escapeList a ++ escapeList b := by
  induction a with
  | nil => simp [escapeList]
  | cons c r ih => simp [escapeList, ih]

theorem escapeChar_65 : escapeChar 65 = [65] := by decide

theorem escapeList_replicate65 (n : Nat) :
    escapeList (List.replicate n 65) = List.replicate n 65 := by
  induction n with
  | zero => simp [escapeList]
  | succ n ih => simp [List.replicate_succ, escapeList, escapeChar_65, ih]

theorem serialize_docC2 : jsonSerialize docC2 = payloadC2 := by
  rw [docC2, jsonSerialize, serEntries]
  rw [show jsonSerialize (.str contentC2) = serString contentC2 from rfl]
  rw [serString, serString, contentC2]
  rw [escapeList_append, escapeList_append, escapeList_replicate65, escapeList_replicate65]
  rw [show escapeList [107] = [107] from by decide]
  rw [show escapeList [49, 47, 80, 1071] = [49, 47, 80, 208, 175] from by decide]
  rw [payloadC2, jsonHeadBytes]
  simp only [List.cons_append, List.nil_append, List.append_assoc]

theorem utf8Step_ascii (b : Nat) (r : Bytes) (hb : b < 128) : utf8Step b r = .ok (b, r) := by
  rw [utf8Step.eq_def, if_pos hb]

theorem utf8DecodeF_cons_ascii (n b : Nat) (r : Bytes) (hb : b < 128) :
    utf8DecodeF (n + 1) (b :: r) = mapCons b (utf8DecodeF n r) := by
  rw [utf8DecodeF, utf8Step_ascii b r hb]

theorem utf8DecodeF_ascii (l : Bytes) (k : Nat) (h : ∀ b ∈ l, b < 128) :
    utf8DecodeF (l.length + k) l = .ok l := by
  induction l generalizing k with
  | nil => cases k <;> rfl
  | cons b r ih =>
    have hb : b < 128 := h b (List.mem_cons_self b r)
    have hr := ih k fun x hx => h x (List.mem_cons_of_mem b hx)
    rw [List.length_cons, show r.length + 1 + k = (r.length + k) + 1 from by omega,
      utf8DecodeF_cons_ascii _ _ _ hb, hr, mapCons]

theorem utf8Decode_ascii (l : Bytes) (h : ∀ b ∈ l, b < 128) : utf8Decode l = .ok l := by
  rw [utf8Decode, show l.length = l.length + 0 from by omega]
  exact utf8DecodeF_ascii l 0 h

theorem utf8DecodeF_ascii_append (l1 l2 : Bytes) (n : Nat) (h : ∀ b ∈ l1, b < 128) :
    utf8DecodeF (l1.length + n) (l1 ++ l2) =
      match utf8DecodeF n l2 with
      | .ok cs => .ok (l1 ++ cs)
      | .error e => .error e := by
  induction l1 with
  | nil =>
    simp only [List.nil_append, List.length_nil, Nat.zero_add]
    cases utf8DecodeF n l2 <;> rfl
  | cons b r ih =>
    have hb : b < 128 := h b (List.mem_cons_self b r)
    have hr := ih fun x hx => h x (List.mem_cons_of_mem b hx)
    rw [List.cons_append, List.length_cons,
      show r.length + 1 + n = (r.length + n) + 1 from by omega,
      utf8DecodeF_cons_ascii _ _ _ hb, hr]
    cases utf8DecodeF n l2 <;> rfl

theorem gC2_ascii : ∀ b ∈ gC2, b < 128 := by
  intro b hb
  rw [gC2] at hb
  rcases List.mem_cons.mp hb with rfl | hb1
  · omega
  rcases List.mem_cons.mp hb1 with rfl | hb2
  · omega
  rcases List.mem_append.mp hb2 with h3 | h4
  · rcases List.mem_append.mp h3 with h5 | h6
    · rw [jsonHeadBytes] at h5
      fin_cases h5 <;> omega
    · have := List.eq_of_mem_replicate h6
      omega
  · have := List.eq_of_mem_replicate h4
    omega

theorem jsonParseTop_soh (rest : List Nat) :
    jsonParseTop (1 :: rest) = .error "Expecting value" := rfl


theorem tryRaw_cC2 : tryRawDeflate (zlibCompress0 payloadC2) = .ok gC2 := rawInflate_cC2

theorem decompress_cC2 : decompressData (zlibCompress0 payloadC2) = .ok gC2 := by
  rw [decompressData, decompressMethods, decompressLoop, tryRaw_cC2]

theorem decodeEntryBytes_json_error (b g : Bytes) (e : String)
    (h1 : decompressData b = .ok g) (h2 : utf8Decode g = .ok g)
    (h3 : jsonParseTop g = .error e) :
    decodeEntryBytes b = .error (.jsonParseError e) := by
  simp only [decodeEntryBytes, h1, h2, h3]

theorem loadDataOnce_single_entry (nm : List Nat) (b : Bytes) (hnm : endsWithData nm = true) :
    loadDataOnce (.archive [(nm, b)]) = decodeEntryBytes b := by
  simp only [loadDataOnce, List.filter_cons, hnm, List.filter_nil, if_true]

theorem decodeEntry_cC2 :
    decodeEntryBytes (zlibCompress0 payloadC2) = .error (.jsonParseError "Expecting value") := by
  refine decodeEntryBytes_json_error _ gC2 _ decompress_cC2 (utf8Decode_ascii gC2 gC2_ascii) ?_
  rw [gC2]
  exact jsonParseTop_soh _

theorem parseStringAux_char (f c : Nat) (r acc : List Nat)
    (h34 : ¬ c = 34) (h92 : ¬ c = 92) (h32 : ¬ c < 32) :
    parseStringAux (f + 1) (c :: r) acc = parseStringAux f r (c :: acc) := by
  rw [parseStringAux, if_neg h34, if_neg h92, if_neg h32]

theorem parseStringAux_close (f : Nat) (r acc : List Nat) :
    parseStringAux (f + 1) (34 :: r) acc = .ok (acc.reverse, r) := by
  rw [parseStringAux, if_pos rfl]

theorem parseStringAux_run (n f : Nat) (rest acc : List Nat) :
    parseStringAux (n + f) (List.replicate n 65 ++ rest) acc =
      parseStringAux f rest (List.replicate n 65 ++ acc) := by
  induction n generalizing acc with
  | zero => simp
  | succ n ih =>
    rw [List.replicate_succ, List.cons_append,
      show n + 1 + f = (n + f) + 1 from by omega,
      parseStringAux_char _ 65 _ _ (by omega) (by omega) (by omega), ih]
    congr 1
    rw [List.append_cons, ← List.replicate_succ', List.replicate_succ, List.cons_append]

theorem parseString_contentC2 :
    parseStringAux 65272 (List.replicate 249 65 ++ ([49, 47, 80, 1071] ++
      (List.replicate 65016 65 ++ [34, 125]))) [] = .ok (contentC2, [125]) := by
  rw [show (65272 : Nat) = 249 + 65023 from by norm_num, parseStringAux_run, List.append_nil]
  rw [List.cons_append, List.cons_append, List.cons_append, List.cons_append, List.nil_append]
  rw [show (65023 : Nat) = 65022 + 1 from rfl,
    parseStringAux_char _ 49 _ _ (by omega) (by omega) (by omega)]
  rw [show (65022 : Nat) = 65021 + 1 from rfl,
    parseStringAux_char _ 47 _ _ (by omega) (by omega) (by omega)]
  rw [show (65021 : Nat) = 65020 + 1 from rfl,
    parseStringAux_char _ 80 _ _ (by omega) (by omega) (by omega)]
  rw [show (65020 : Nat) = 65019 + 1 from rfl,
    parseStringAux_char _ 1071 _ _ (by omega) (by omega) (by omega)]
  rw [show (65019 : Nat) = 65016 + 3 from by norm_num, parseStringAux_run]
  rw [show (3 : Nat) = 2 + 1 from rfl, parseStringAux_close]
  rw [List.reverse_append, List.reverse_cons, List.reverse_cons, List.reverse_cons,
    List.reverse_cons, List.reverse_replicate, List.reverse_replicate, contentC2]
  simp only [List.append_assoc, List.cons_append, List.nil_append]

theorem contRestC2_length : contRestC2.length = 65271 := by
  rw [contRestC2, List.length_append, List.length_append, List.length_append,
    List.length_replicate, List.length_replicate]
  norm_num

theorem parseJsonValue_obj123 (fuel : Nat) (r : List Nat) :
    parseJsonValue (fuel + 1) (123 :: r) = parseJsonObj fuel (skipWs r) [] true := rfl

theorem parseJsonValue_string (fuel : Nat) (r s rest : List Nat)
    (h : parseStringAux (r.length + 1) r [] = .ok (s, rest)) :
    parseJsonValue (fuel + 1) (34 :: r) = .ok (.str s, rest) := by
  have h0 : parseJsonValue (fuel + 1) (34 :: r) =
      match parseStringAux (r.length + 1) r [] with
      | .ok (s, rest) => .ok (.str s, rest)
      | .error e => .error e := rfl
  rw [h0, h]

theorem parseJsonObj_start (fuel : Nat) (r : List Nat) (acc : List (List Nat × PyVal)) :
    parseJsonObj (fuel + 1) (34 :: r) acc true =
      match parseStringAux (r.length + 1) r [] with
      | .error e => .error e
      | .ok (k, rest1) =>
        match skipWs rest1 with
        | 58 :: rest2 =>
          match parseJsonValue fuel (skipWs rest2) with
          | .error e => .error e
          | .ok (v, rest3) =>
            match skipWs rest3 with
            | 44 :: rest4 => parseJsonObj fuel (skipWs rest4) (dictUpdate acc k v) false
            | 125 :: rest4 => .ok (.dict (dictUpdate acc k v), rest4)
            | _ => .error "Expecting ',' delimiter"
        | _ => .error "Expecting ':' delimiter" := rfl

theorem parseJsonObj_compute (fuel : Nat) (r k r1 r2 rest rest4 : List Nat) (v : PyVal)
    (acc : List (List Nat × PyVal))
    (hk : parseStringAux (r.length + 1) r [] = .ok (k, r1))
    (hcolon : skipWs r1 = 58 :: r2)
    (hv : parseJsonValue fuel (skipWs r2) = .ok (v, rest))
    (hbrace : skipWs rest = 125 :: rest4) :
    parseJsonObj (fuel + 1) (34 :: r) acc true = .ok (.dict (dictUpdate acc k v), rest4) := by
  rw [parseJsonObj_start]
  simp only [hk, hcolon, hv, hbrace]

theorem payloadC2_utf8split : payloadC2 =
    (jsonHeadBytes ++ (List.replicate 249 65 ++ [49, 47, 80])) ++
      (208 :: 175 :: (List.replicate 65016 65 ++ [34, 125])) := by
  rw [payloadC2]
  simp only [List.append_assoc, List.cons_append, List.nil_append]

theorem asciiHead_length :
    (jsonHeadBytes ++ (List.replicate 249 65 ++ [49, 47, 80])).length = 258 := by
  rw [List.length_append, List.length_append, List.length_replicate, jsonHeadBytes]
  norm_num

theorem asciiHead_ascii :
    ∀ b ∈ jsonHeadBytes ++ (List.replicate 249 65 ++ [49, 47, 80]), b < 128 := by
  intro b hb
  rcases List.mem_append.mp hb with h1 | h2
  · rw [jsonHeadBytes] at h1
    fin_cases h1 <;> omega
  · rcases List.mem_append.mp h2 with h3 | h4
    · have := List.eq_of_mem_replicate h3
      omega
    · fin_cases h4 <;> omega

theorem asciiTail_ascii : ∀ b ∈ List.replicate 65016 65 ++ [34, 125], b < 128 := by
  intro b hb
  rcases List.mem_append.mp hb with h1 | h2
  · have := List.eq_of_mem_replicate h1
    omega
  · fin_cases h2 <;> omega

theorem utf8Step_cyrillic (rest : Bytes) : utf8Step 208 (175 :: rest) = .ok (1071, rest) := by
  rw [utf8Step.eq_def]
  rw [if_neg (by norm_num), if_pos (by constructor <;> norm_num)]
  show (if utf8Cont 175 then
      Except.ok ((208 - 0xC0) * 64 + (175 - 0x80), rest)
    else Except.error "UnicodeDecodeError: invalid continuation byte") = .ok (1071, rest)
  rw [if_pos (by decide)]

theorem utf8DecodeF_cyrillic (n : Nat) (rest : Bytes) :
    utf8DecodeF (n + 1) (208 :: 175 :: rest) = mapCons 1071 (utf8DecodeF n rest) := by
  rw [utf8DecodeF, utf8Step_cyrillic]

theorem utf8_payloadC2 : utf8Decode payloadC2 = .ok cpsC2 := by
  rw [utf8Decode, payloadC2_utf8split]
  rw [List.length_append, asciiHead_length]
  rw [show (208 :: 175 :: (List.replicate 65016 65 ++ [34, 125])).length = 65020 from by
    rw [List.length_cons, List.length_cons, List.length_append, List.length_replicate]
    norm_num]
  rw [show (258 : Nat) + 65020 =
      (jsonHeadBytes ++ (List.replicate 249 65 ++ [49, 47, 80])).length + 65020 from by
    rw [asciiHead_length]]
  rw [utf8DecodeF_ascii_append _ _ 65020 asciiHead_ascii]
  rw [show (65020 : Nat) = 65019 + 1 from rfl, utf8DecodeF_cyrillic]
  rw [show (65019 : Nat) = (List.replicate 65016 65 ++ [34, 125]).length + 1 from by
    rw [List.length_append, List.length_replicate]
    norm_num]
  rw [utf8DecodeF_ascii _ 1 asciiTail_ascii]
  rw [mapCons]
  rw [cpsC2, contRestC2, jsonHeadBytes]
  simp only [List.append_assoc, List.cons_append, List.nil_append]

theorem parse_key_cpsC2 :
    parseStringAux ((107 :: 34 :: 58 :: 34 :: contRestC2).length + 1)
      (107 :: 34 :: 58 :: 34 :: contRestC2) [] = .ok ([107], 58 :: 34 :: contRestC2) := by
  rw [show (107 :: 34 :: 58 :: 34 :: contRestC2).length = 65275 from by
    rw [List.length_cons, List.length_cons, List.length_cons, List.length_cons,
      contRestC2_length]]
  rw [parseStringAux_char _ 107 _ _ (by omega) (by omega) (by omega),
    show (65275 : Nat) = 65274 + 1 from rfl, parseStringAux_close]
  rfl

theorem parse_value_cpsC2 :
    parseJsonValue 65276 (34 :: contRestC2) = .ok (.str contentC2, [125]) := by
  rw [show (65276 : Nat) = 65275 + 1 from rfl]
  refine parseJsonValue_string 65275 contRestC2 contentC2 [125] ?_
  rw [contRestC2_length]
  rw [show (65271 : Nat) + 1 = 65272 from rfl, contRestC2]
  exact parseString_contentC2

theorem parse_cpsC2 : parseJsonValue 65278 cpsC2 = .ok (docC2, []) := by
  rw [cpsC2, show (65278 : Nat) = 65277 + 1 from rfl, parseJsonValue_obj123]
  rw [show skipWs (34 :: 107 :: 34 :: 58 :: 34 :: contRestC2) =
      34 :: 107 :: 34 :: 58 :: 34 :: contRestC2 from rfl]
  rw [show (65277 : Nat) = 65276 + 1 from rfl]
  rw [parseJsonObj_compute 65276 (107 :: 34 :: 58 :: 34 :: contRestC2) [107]
    (58 :: 34 :: contRestC2) (34 :: contRestC2) [125] [] (.str contentC2) []
    parse_key_cpsC2 rfl (by rw [show skipWs (34 :: contRestC2) = 34 :: contRestC2 from rfl]
                            exact parse_value_cpsC2) rfl]
  rw [docC2]
  rfl

theorem cpsC2_length : cpsC2.length = 65277 := by
  rw [cpsC2, List.length_cons, List.length_cons, List.length_cons, List.length_cons,
    List.length_cons, List.length_cons, contRestC2_length]

theorem parseDocBytes_via (b : Bytes) (cps : List Nat) (v : PyVal) (rest : List Nat)
    (h1 : utf8Decode b = .ok cps)
    (h2 : parseJsonValue (cps.length + 1) (skipWs cps) = .ok (v, rest))
    (h3 : skipWs rest = []) :
    parseDocBytes b = .ok v := by
  simp only [parseDocBytes, h1, jsonParseTop, h2, h3]

theorem parseDoc_payloadC2 : parseDocBytes payloadC2 = .ok docC2 := by
  refine parseDocBytes_via payloadC2 cpsC2 docC2 [] utf8_payloadC2 ?_ rfl
  rw [cpsC2_length, show (65277 : Nat) + 1 = 65278 from rfl,
    show skipWs cpsC2 = cpsC2 from rfl]
  exact parse_cpsC2

theorem loadData_none_error (src : ZipSource) (e : SopError)
    (h : loadDataOnce src = .error e) :
    loadData PyVal.none src = (.error e, PyVal.none) := by
  simp only [loadData, h]

/-- C2 (counterexample): the 65278-byte document `docC2` — serialized as
UTF-8 JSON to `payloadC2`, which parses back to it exactly — when
compressed with the standard zlib-wrapped method at the no-compression
level and stored as the single `.data` entry, is NOT reconstructed:
raw inflate (strategy 1) also accepts the zlib-framed bytes, the
decompressor returns that stream's stored-block content instead of the
payload, and JSON parsing fails. -/
theorem C2_counterexample :
    jsonSerialize docC2 = payloadC2 ∧
    parseDocBytes payloadC2 = .ok docC2 ∧
    loadData PyVal.none (.archive [(strCodes "package.data", zlibCompress0 payloadC2)]) =
      (.error (.jsonParseError "Expecting value"), PyVal.none) :=
  ⟨serialize_docC2, parseDoc_payloadC2,
    loadData_none_error _ _
      ((loadDataOnce_single_entry (strCodes "package.data") _ (by decide)).trans
        decodeEntry_cC2)⟩
